import Mathlib

/-!
The class `sansumbrella::Sandbox` of suBox2D: unit conversion, configuration, mouse
interaction.

A shallow embedding of `src/sansumbrella/Sandbox.h`.

* `float` is IEEE 754 binary32.  A value is modelled by what it denotes (NaN, a signed
  infinity, or a signed finite magnitude in `ℚ`), and every arithmetic operation is the
  exact rational result rounded to nearest, ties to even, with gradual underflow and
  overflow to infinity.  Each C++ operation is rounded to `float` (`FLT_EVAL_METHOD == 0`).
* `int` members are only stored, never computed with, so they are modelled by `Int`.
* The member functions defined inline in the header (`toPhysics`, `toPoints`, the three
  setters, the counting accessors) are translated from the header.  Member functions that
  the header only declares are modelled from the specification and say so.
-/

namespace sansumbrella

/-! ## IEEE 754 binary32 -/

/-- Round a non-negative rational to the nearest natural number, ties to the even one. -/
def roundHalfEven (x : ℚ) : ℕ :=
  if x - (⌊x⌋₊ : ℚ) < 1 / 2 then ⌊x⌋₊
  else if 1 / 2 < x - (⌊x⌋₊ : ℚ) then ⌊x⌋₊ + 1
  else if ⌊x⌋₊ % 2 = 0 then ⌊x⌋₊ else ⌊x⌋₊ + 1

/-- Exponent of the unit in the last place of binary32 at magnitude `q`: 24 significant
bits, and never finer than `2 ^ (-149)` (the spacing of the subnormal numbers). -/
def ulpExp (q : ℚ) : ℤ := max (Int.log 2 q - 23) (-149)

/-- Round a non-negative magnitude to the binary32 grid, exponent unbounded above. -/
def roundMag (q : ℚ) : ℚ := (roundHalfEven (q / 2 ^ ulpExp q) : ℚ) * 2 ^ ulpExp q

/-- Values of a C++ `float`: NaN, `±∞`, or a signed finite magnitude (`fin true 0` is `-0`). -/
inductive F32 where
  | nan : F32
  | inf (neg : Bool) : F32
  | fin (neg : Bool) (mag : ℚ) : F32
  deriving DecidableEq

namespace F32

/-- Largest finite binary32 magnitude, `(2 ^ 24 - 1) * 2 ^ 104`. -/
def maxFinite : ℚ := (2 ^ 24 - 1) * 2 ^ 104

/-- Smallest normal binary32 magnitude, `2 ^ (-126)`. -/
def minNormal : ℚ := 1 / 2 ^ 126

/-- Deliver an exact result of sign `neg` and magnitude `q` as a `float`: round to nearest
even, and overflow to infinity when the rounded magnitude exceeds `maxFinite`. -/
def round (neg : Bool) (q : ℚ) : F32 :=
  if maxFinite < roundMag q then inf neg else fin neg (roundMag q)

/-- The `float` nearest to a rational, as a decimal literal with suffix `f` denotes. -/
def ofRat (q : ℚ) : F32 := round (decide (q < 0)) |q|

/-- IEEE multiplication, `operator*` on `float`. -/
def mul : F32 → F32 → F32
  | nan, _ => nan
  | _, nan => nan
  | inf s, inf t => inf (xor s t)
  | inf s, fin t b => if b = 0 then nan else inf (xor s t)
  | fin s a, inf t => if a = 0 then nan else inf (xor s t)
  | fin s a, fin t b => round (xor s t) (a * b)

/-- IEEE division, `operator/` on `float`. -/
def div : F32 → F32 → F32
  | nan, _ => nan
  | _, nan => nan
  | inf _, inf _ => nan
  | inf s, fin t _ => inf (xor s t)
  | fin s _, inf t => fin (xor s t) 0
  | fin s a, fin t b =>
    if b = 0 then (if a = 0 then nan else inf (xor s t)) else round (xor s t) (a / b)

/-- IEEE addition, `operator+` on `float`. -/
def add : F32 → F32 → F32
  | nan, _ => nan
  | _, nan => nan
  | inf s, inf t => if s = t then inf s else nan
  | inf s, fin _ _ => inf s
  | fin _ _, inf t => inf t
  | fin s a, fin t b =>
    if s = t then round s (a + b)
    else if a = b then fin false 0
    else if b < a then round s (a - b) else round t (b - a)

/-- The rational a finite `float` denotes (`0` for NaN and the infinities). -/
def val : F32 → ℚ
  | fin s a => if s then -a else a
  | _ => 0

/-- A genuine binary32 datum: NaN, an infinity, or a finite magnitude that rounding leaves
alone and that does not exceed `maxFinite`. -/
def isFloat : F32 → Bool
  | fin _ a => decide (0 ≤ a ∧ roundMag a = a ∧ a ≤ maxFinite)
  | _ => true

/-- Neither NaN nor an infinity. -/
def isFinite : F32 → Bool
  | fin _ _ => true
  | _ => false

/-- A normal number: finite, with magnitude between `minNormal` and `maxFinite`. -/
def isNormal : F32 → Bool
  | fin _ a => decide (minNormal ≤ a ∧ a ≤ maxFinite)
  | _ => false

/-- IEEE `<` (false whenever an operand is NaN). -/
def lt : F32 → F32 → Bool
  | nan, _ => false
  | _, nan => false
  | inf s, inf t => s && !t
  | inf s, fin _ _ => s
  | fin _ _, inf t => !t
  | fin s a, fin t b => decide ((fin s a).val < (fin t b).val)

/-- IEEE `==` (false whenever an operand is NaN; `-0 == +0`). -/
def eq : F32 → F32 → Bool
  | nan, _ => false
  | _, nan => false
  | inf s, inf t => s == t
  | inf _, fin _ _ => false
  | fin _ _, inf _ => false
  | fin s a, fin t b => decide ((fin s a).val = (fin t b).val)

/-- IEEE `<=` (false whenever an operand is NaN). -/
def le : F32 → F32 → Bool
  | nan, _ => false
  | _, nan => false
  | inf s, inf t => s || !t
  | inf s, fin _ _ => s
  | fin _ _, inf t => !t
  | fin s a, fin t b => decide ((fin s a).val ≤ (fin t b).val)

/-- Unary minus: flip the sign bit. -/
def neg : F32 → F32
  | nan => nan
  | inf s => inf (!s)
  | fin s a => fin (!s) a

/-- IEEE subtraction, `operator-` on `float`. -/
def sub (a b : F32) : F32 := add a (neg b)

/-- Absolute value (`b2Abs`, `fabsf`): clear the sign bit. -/
def abs : F32 → F32
  | nan => nan
  | inf _ => inf false
  | fin _ a => fin false a

end F32

/-- Modelled from the spec: `ci::Vec2f` (`cinder/Vector.h`), the "2D-vector" of two `float`
components. -/
structure Vec2f where
  x : F32
  y : F32
  deriving DecidableEq

namespace Vec2f

/-- Modelled from the spec: `Vec2f::operator*(float)`, "simple multiplication": both
components times the scalar. -/
def mul (v : Vec2f) (k : F32) : Vec2f := ⟨F32.mul v.x k, F32.mul v.y k⟩

/-- Modelled from the spec: `Vec2f::operator+(Vec2f)`, the componentwise sum. -/
def add (v w : Vec2f) : Vec2f := ⟨F32.add v.x w.x, F32.add v.y w.y⟩

/-- Modelled from the spec: `operator*(float, Vec2f)`, the scalar times both components. -/
def smul (k : F32) (v : Vec2f) : Vec2f := ⟨F32.mul k v.x, F32.mul k v.y⟩

/-- Modelled from the spec: `Vec2f::operator-(Vec2f)`, the componentwise difference. -/
def sub (v w : Vec2f) : Vec2f := ⟨F32.sub v.x w.x, F32.sub v.y w.y⟩

/-- Both components are normal numbers. -/
def allNormal (v : Vec2f) : Bool := v.x.isNormal && v.y.isNormal

end Vec2f

instance : HMul F32 F32 F32 := ⟨F32.mul⟩

instance : HMul Vec2f F32 Vec2f := ⟨Vec2f.mul⟩

/-! ## Collaborators the header only names -/

/-- Modelled from the spec: `b2Vec2`, the engine's pair of `float`s. -/
abbrev b2Vec2 := Vec2f

/-- Modelled from the spec: `b2BodyType`, the kinds of body ("static body", "dynamic body"). -/
inductive b2BodyType where
  | b2_staticBody
  | b2_kinematicBody
  | b2_dynamicBody
  deriving DecidableEq

/-- Modelled from the spec: `b2Body`, "a simulation entity with position, velocity,
shape(s)", owned by the engine and handed out as a non-owning handle.  The handle is `id`;
`testPoint` says which simulation-space points the body's shapes cover. -/
structure b2Body where
  id : Nat
  type : b2BodyType
  position : b2Vec2
  testPoint : b2Vec2 → Bool

/-- Modelled from the spec: `b2Joint`; `isMouse` marks a mouse constraint, "a temporary
spring-like joint used to drag a body toward the pointer", with its grabbed body and target. -/
structure b2Joint where
  id : Nat
  isMouse : Bool
  bodyB : Nat
  target : b2Vec2

/-- Modelled from the spec: `b2World`, "the externally-owned simulation container holding
all bodies, fixtures, joints"; `contacts` are the touching pairs and `nextId` the next
unused handle. -/
structure b2World where
  gravity : b2Vec2
  bodies : List b2Body
  joints : List b2Joint
  contacts : List (Nat × Nat)
  nextId : Nat

/-- Modelled from the spec: `b2BodyDef`, the caller's body definition (kind and position). -/
structure b2BodyDef where
  type : b2BodyType
  position : b2Vec2

/-- Modelled from the spec: `b2FixtureDef`, the caller's shape, given by the points it
covers in body-local coordinates. -/
structure b2FixtureDef where
  shapeTest : b2Vec2 → Bool

/-- Modelled from the spec: `b2AABB`, an axis-aligned box given by two corners. -/
structure b2AABB where
  lowerBound : b2Vec2
  upperBound : b2Vec2

/-- Modelled from the spec: `ci::Rectf`, a rectangle given by four `float` coordinates. -/
structure Rectf where
  x1 : F32
  y1 : F32
  x2 : F32
  y2 : F32

/-- Modelled from the spec: `b2ContactFilter`, "a user-supplied filter predicate that the
simulation consults to decide whether two fixtures may collide". -/
structure b2ContactFilter where
  shouldCollide : Nat → Nat → Bool

/-- Modelled from the spec: `Box2DRenderer` (`Box2DRenderer.h`), the debug renderer; "pure
read-only visualization", so only its draw flags are state. -/
structure Box2DRenderer where
  drawFlags : Nat

namespace b2World

/-- Modelled from the spec: `b2World( b2Vec2 gravity )`, an empty world. -/
def new (gravity : b2Vec2) : b2World := ⟨gravity, [], [], [], 0⟩

/-- Modelled from the spec: `b2World::GetBodyCount`, the number of bodies. -/
def GetBodyCount (w : b2World) : Nat := w.bodies.length

/-- Modelled from the spec: `b2World::GetContactCount`, the number of contacts. -/
def GetContactCount (w : b2World) : Nat := w.contacts.length

/-- Number of mouse constraints alive in the world. -/
def mouseJointCount (w : b2World) : Nat := (w.joints.filter (fun j => j.isMouse)).length

/-- Modelled from the spec: a point query, the bodies found under a simulation-space point. -/
def queryPoint (w : b2World) (p : b2Vec2) : List b2Body := w.bodies.filter (fun b => b.testPoint p)

/-- Modelled from the spec: `b2World::CreateBody` with one fixture: the new body heads the
body list, takes the next unused handle, and covers the world points whose offset from its
position the shape covers. -/
def CreateBody (w : b2World) (body_def : b2BodyDef) (fixture_def : b2FixtureDef) :
    b2Body × b2World :=
  let body : b2Body :=
    { id := w.nextId
      type := body_def.type
      position := body_def.position
      testPoint := fun p => fixture_def.shapeTest (Vec2f.sub p body_def.position) }
  (body, { w with bodies := body :: w.bodies, nextId := w.nextId + 1 })

/-- Modelled from the spec: `b2World::CreateJoint` for a mouse joint definition; returns the
handle of the new joint. -/
def CreateMouseJoint (w : b2World) (bodyB : Nat) (target : b2Vec2) : Nat × b2World :=
  (w.nextId, { w with joints := ⟨w.nextId, true, bodyB, target⟩ :: w.joints,
                      nextId := w.nextId + 1 })

/-- Modelled from the spec: `b2World::DestroyJoint`, by handle. -/
def DestroyJoint (w : b2World) (joint : Nat) : b2World :=
  { w with joints := w.joints.filter (fun j => decide (j.id ≠ joint)) }

/-- Modelled from the spec: `b2MouseJoint::SetTarget` on the joint with the given handle. -/
def SetTarget (w : b2World) (joint : Nat) (target : b2Vec2) : b2World :=
  { w with joints := w.joints.map (fun j => if j.id = joint then { j with target := target } else j) }

end b2World

/-- Modelled from the spec: `b2PolygonShape::SetAsBox( hx, hy )` for positive half-extents:
the axis-aligned box of half-extents `hx`, `hy` about the body origin, edges included. -/
def boxShape (hx hy : F32) : b2FixtureDef :=
  ⟨fun q => F32.le (F32.abs q.x) hx && F32.le (F32.abs q.y) hy⟩

/-- A half-extent of a well-formed box: positive and finite. -/
def isExtent (h : F32) : Bool := F32.lt (F32.fin false 0) h && h.isFinite

/-- Modelled from the spec: `ci::app::MouseEvent`, of which the handlers read the cursor
position. -/
structure MouseEvent where
  pos : Vec2f

/-! ## The Sandbox -/

/-- The data members of `class Sandbox` (`Sandbox.h`, lines 125-143). -/
structure Sandbox where
  mVelocityIterations : Int
  mPositionIterations : Int
  mTimeStep : F32
  mPointsPerMeter : F32
  mMetersPerPoint : F32
  mWorld : b2World
  mWorldBounds : b2AABB
  mWordSection : Rectf
  mContactFilter : b2ContactFilter
  mBoundaryDepth : F32
  mMouseJoint : Option Nat
  mBoundaryBody : Option Nat
  mDebugRenderer : Box2DRenderer

namespace Sandbox

/-- The constructor `Sandbox::Sandbox()`: every member takes its default member initializer (`Sandbox.h`,
lines 125-143; the constructor's body is in `Sandbox.cpp`).  The two members without an
initializer (`mWorldBounds`, `mWordSection`) are indeterminate and the two default
constructed collaborators are the engine's; all four are parameters. -/
def fresh (bounds : b2AABB) (view : Rectf) (filter : b2ContactFilter)
    (renderer : Box2DRenderer) : Sandbox where
  mVelocityIterations := 8
  mPositionIterations := 3
  mTimeStep := F32.div (F32.ofRat 1) (F32.ofRat 60)
  mPointsPerMeter := F32.ofRat 50
  mMetersPerPoint := F32.div (F32.ofRat 1) (F32.ofRat 50)
  mWorld := b2World.new ⟨F32.ofRat 0, F32.ofRat 10⟩
  mWorldBounds := bounds
  mWordSection := view
  mContactFilter := filter
  mBoundaryDepth := F32.ofRat 5
  mMouseJoint := none
  mBoundaryBody := none
  mDebugRenderer := renderer

/-- Source: `int32 getBodyCount(){ return mWorld.GetBodyCount(); }` -/
def getBodyCount (s : Sandbox) : Nat := s.mWorld.GetBodyCount

/-- Source: `int32 getContactCount(){ return mWorld.GetContactCount(); }` -/
def getContactCount (s : Sandbox) : Nat := s.mWorld.GetContactCount

/-- Source: `void setVelocityIterations( int vi ){ mVelocityIterations = vi; }` -/
def setVelocityIterations (s : Sandbox) (vi : Int) : Sandbox := { s with mVelocityIterations := vi }

/-- Source: `void setPositionIterations( int pi ){ mPositionIterations = pi; }` -/
def setPositionIterations (s : Sandbox) (pi : Int) : Sandbox := { s with mPositionIterations := pi }

/-- Source: `void setTimeStep( float hz ){ mTimeStep = hz; }` -/
def setTimeStep (s : Sandbox) (hz : F32) : Sandbox := { s with mTimeStep := hz }

/-- Source: `template<typename T> T toPhysics( const T &points )`:
`return points * mMetersPerPoint;`, instantiated at `float` and `ci::Vec2f`. -/
def toPhysics {T : Type} [HMul T F32 T] (s : Sandbox) (points : T) : T :=
  points * s.mMetersPerPoint

/-- Source: `template<typename T> T toPoints( const T &physical_measure )`:
`return physical_measure * mPointsPerMeter;`, instantiated at `float` and `ci::Vec2f`. -/
def toPoints {T : Type} [HMul T F32 T] (s : Sandbox) (physical_measure : T) : T :=
  physical_measure * s.mPointsPerMeter

/-- Modelled from the spec: `void setPointsPerMeter( float points )`, declared in the header
and defined in `Sandbox.cpp`: "a scalar (points-per-meter) and its inverse ... mutable via a
setter".  The inverse is formed as the header's initializer forms it, `1.0f / mPointsPerMeter`. -/
def setPointsPerMeter (s : Sandbox) (points : F32) : Sandbox :=
  { s with mPointsPerMeter := points, mMetersPerPoint := F32.div (F32.ofRat 1) points }

/-- Modelled from the spec: `b2Body* createBody( const b2BodyDef&, const b2FixtureDef& )`,
"create a box2d body from the given definitions" and "return a non-owning reference to the
created body". -/
def createBody (s : Sandbox) (body_def : b2BodyDef) (fixture_def : b2FixtureDef) :
    b2Body × Sandbox :=
  ((s.mWorld.CreateBody body_def fixture_def).1,
    { s with mWorld := (s.mWorld.CreateBody body_def fixture_def).2 })

/-- Modelled from the spec: `b2Body* createBox( const ci::Vec2f &pos, const ci::Vec2f &size )`:
"accept position/size ... in screen units, convert to simulation units using the current
scale, construct body+fixture definitions".  The body is dynamic (it is what `mouseDown`
grabs).  For a well-formed converted size its fixture is the box with those extents.  For
any other size the spec fixes nothing ("malformed input (degenerate shapes, zero-size boxes)
is undefined/caller-responsibility, mirroring the wrapped engine's own validation"): the
fixture the engine then ends up with is the parameter `degenerate`. -/
def createBox (s : Sandbox) (pos size : Vec2f) (degenerate : b2FixtureDef) : b2Body × Sandbox :=
  s.createBody ⟨b2BodyType.b2_dynamicBody, s.toPhysics pos⟩
    (if isExtent (s.toPhysics size).x && isExtent (s.toPhysics size).y
      then boxShape (s.toPhysics size).x (s.toPhysics size).y else degenerate)

/-- Modelled from the spec: `void clear()`, "removes all bodies and joints, leaving the
world empty but initialized". -/
def clear (s : Sandbox) : Sandbox :=
  { s with mWorld := { s.mWorld with bodies := [], joints := [], contacts := [] } }

/-- Modelled from the spec: the body `mouseDown` grabs at simulation point `p`: "a point
query against existing bodies (excluding the boundary)", keeping "a dynamic body ... found
under the point". -/
def grabTarget (s : Sandbox) (p : b2Vec2) : Option b2Body :=
  (s.mWorld.queryPoint p).find? (fun b =>
    decide (b.type = b2BodyType.b2_dynamicBody) && decide (some b.id ≠ s.mBoundaryBody))

/-- Modelled from the spec: `bool mouseDown( ci::app::MouseEvent &event )`: "converts the
cursor position to simulation units, performs a point query against existing bodies
(excluding the boundary), and if a dynamic body is found under the point, creates a mouse
constraint anchored at that point with the clicked body.  Transition Idle→Dragging.  Returns
whether a body was grabbed".  Nothing in it looks at a constraint that is already active:
pairing presses with releases is the caller's ("its creation/destruction must be paired
exactly (press/drag*/release)"). -/
def mouseDown (s : Sandbox) (event : MouseEvent) : Bool × Sandbox :=
  match s.grabTarget (s.toPhysics event.pos) with
  | none => (false, s)
  | some b =>
    (true, { s with
      mWorld := (s.mWorld.CreateMouseJoint b.id (s.toPhysics event.pos)).2
      mMouseJoint := some (s.mWorld.CreateMouseJoint b.id (s.toPhysics event.pos)).1 })

/-- Modelled from the spec: `bool mouseDrag( ci::app::MouseEvent &event )`: "while
Dragging, updates the constraint's target point to the converted cursor position each call;
no-op (returns not-consumed) if Idle". -/
def mouseDrag (s : Sandbox) (event : MouseEvent) : Bool × Sandbox :=
  match s.mMouseJoint with
  | none => (false, s)
  | some j => (true, { s with mWorld := s.mWorld.SetTarget j (s.toPhysics event.pos) })

/-- Modelled from the spec: `bool mouseUp( ci::app::MouseEvent &event )`: "if Dragging,
destroys the constraint and transitions to Idle; no-op otherwise"; the result is the "did I
use this event" signal, false when nothing was grabbed. -/
def mouseUp (s : Sandbox) (_event : MouseEvent) : Bool × Sandbox :=
  match s.mMouseJoint with
  | none => (false, s)
  | some j => (true, { s with mWorld := s.mWorld.DestroyJoint j, mMouseJoint := none })

/-- The scale invariant in the form `float` arithmetic keeps: the scale is positive and
`mMetersPerPoint` is its `float` inverse `1.0f / mPointsPerMeter`, a normal number. -/
def ScaleOk (s : Sandbox) : Prop :=
  F32.lt (F32.ofRat 0) s.mPointsPerMeter = true ∧
  s.mMetersPerPoint = F32.div (F32.ofRat 1) s.mPointsPerMeter ∧
  s.mMetersPerPoint.isNormal = true

/-- How the world's mouse constraints stand when a grab is outstanding (`g = true`) or not:
with a grab outstanding there is exactly one and `mMouseJoint` is its handle; without, there
is none. -/
def MouseInv (s : Sandbox) (g : Bool) : Prop :=
  (g = true → ∃ jt, s.mWorld.joints.filter (fun j => j.isMouse) = [jt] ∧
    s.mMouseJoint = some jt.id) ∧
  (g = false → s.mWorld.joints.filter (fun j => j.isMouse) = [])

/-- A freshly constructed Sandbox, with zeros for the members the constructor leaves
indeterminate, a filter that lets everything collide and a renderer without flags. -/
def sample : Sandbox :=
  fresh ⟨⟨F32.fin false 0, F32.fin false 0⟩, ⟨F32.fin false 0, F32.fin false 0⟩⟩
    ⟨F32.fin false 0, F32.fin false 0, F32.fin false 0, F32.fin false 0⟩
    ⟨fun _ _ => true⟩ ⟨0⟩

/-- The freshly constructed Sandbox after `createBox` of a 10-by-10 box at `(100, 100)`. -/
def sampleWithBox : Sandbox :=
  (sample.createBox ⟨F32.ofRat 100, F32.ofRat 100⟩ ⟨F32.ofRat 10, F32.ofRat 10⟩
    ⟨fun _ => false⟩).2

end Sandbox

/-! ## Sequences of interaction calls -/

/-- One call of the interaction interface. -/
inductive Call where
  | mouseDown (event : MouseEvent)
  | mouseDrag (event : MouseEvent)
  | mouseUp (event : MouseEvent)
  | clear

namespace Call

/-- A call that ends a drag: `mouseUp` or `clear`. -/
def isRelease : Call → Bool
  | mouseUp _ => true
  | clear => true
  | _ => false

/-- Perform one call; `clear` returns nothing, recorded as `false`. -/
def perform (s : Sandbox) : Call → Bool × Sandbox
  | mouseDown e => s.mouseDown e
  | mouseDrag e => s.mouseDrag e
  | mouseUp e => s.mouseUp e
  | clear => (false, s.clear)

end Call

/-- Perform the calls in order; the history pairs each call with what it returned. -/
def runCalls (s : Sandbox) : List Call → List (Call × Bool) × Sandbox
  | [] => ([], s)
  | c :: cs =>
    ((c, (c.perform s).1) :: (runCalls (c.perform s).2 cs).1, (runCalls (c.perform s).2 cs).2)

/-- The spec's "a successful grab has occurred and no release/clear has followed": some
`mouseDown` in the history returned true and no `mouseUp` or `clear` comes after it. -/
def GrabbedSince (hist : List (Call × Bool)) : Prop :=
  ∃ pre e post, hist = pre ++ (Call.mouseDown e, true) :: post ∧
    ∀ c ∈ post, c.1.isRelease = false

/-- The same, computed by a left-to-right scan starting from `g`. -/
def grabScan (g : Bool) : List (Call × Bool) → Bool
  | [] => g
  | (Call.mouseDown _, r) :: h => grabScan (g || r) h
  | (Call.mouseDrag _, _) :: h => grabScan g h
  | (Call.mouseUp _, _) :: h => grabScan false h
  | (Call.clear, _) :: h => grabScan false h

/-- The caller's side of "its creation/destruction must be paired exactly
(press/drag*/release)": no `mouseDown` is issued while a grab is outstanding. -/
def PressesPaired (hist : List (Call × Bool)) : Prop :=
  ∀ pre e r post, hist = pre ++ (Call.mouseDown e, r) :: post → ¬ GrabbedSince pre

/-- The same, computed by a left-to-right scan; `g` says whether a grab is outstanding at
the start. -/
def pairedFrom (g : Bool) : List (Call × Bool) → Bool
  | [] => true
  | (Call.mouseDown _, r) :: h => !g && pairedFrom (g || r) h
  | (Call.mouseDrag _, _) :: h => pairedFrom g h
  | (Call.mouseUp _, _) :: h => pairedFrom false h
  | (Call.clear, _) :: h => pairedFrom false h

/-- Press on the box at `(100, 100)` twice, with no release in between. -/
def pressPress : List Call :=
  [Call.mouseDown ⟨⟨F32.ofRat 100, F32.ofRat 100⟩⟩,
    Call.mouseDown ⟨⟨F32.ofRat 100, F32.ofRat 100⟩⟩]

/-- Press on the box at `(100, 100)`, drag, release, press again. -/
def pressDragReleasePress : List Call :=
  [Call.mouseDown ⟨⟨F32.ofRat 100, F32.ofRat 100⟩⟩,
    Call.mouseDrag ⟨⟨F32.ofRat 120, F32.ofRat 100⟩⟩,
    Call.mouseUp ⟨⟨F32.ofRat 120, F32.ofRat 100⟩⟩,
    Call.mouseDown ⟨⟨F32.ofRat 100, F32.ofRat 100⟩⟩]

/-! ## Rounding: error bounds -/

theorem roundHalfEven_err (x : ℚ) (hx : 0 ≤ x) : |(roundHalfEven x : ℚ) - x| ≤ 1 / 2 := by
  have h1 : (⌊x⌋₊ : ℚ) ≤ x := Nat.floor_le hx
  have h2 : x < (⌊x⌋₊ : ℚ) + 1 := Nat.lt_floor_add_one x
  unfold roundHalfEven
  rw [abs_le]
  split_ifs with c1 c2 c3 <;> push_cast <;> constructor <;> linarith

theorem floor_le_roundHalfEven (x : ℚ) : ⌊x⌋₊ ≤ roundHalfEven x := by
  unfold roundHalfEven
  split_ifs <;> omega

theorem roundHalfEven_of_nonpos (x : ℚ) (hx : x ≤ 0) : roundHalfEven x = 0 := by
  have h0 : ⌊x⌋₊ = 0 := Nat.floor_of_nonpos hx
  unfold roundHalfEven
  rw [h0]
  have : x - ((0 : ℕ) : ℚ) < 1 / 2 := by push_cast; linarith
  rw [if_pos this]

theorem two_zpow_pos (t : ℤ) : (0 : ℚ) < 2 ^ t := zpow_pos (by norm_num) t

theorem roundMag_nonneg (q : ℚ) : 0 ≤ roundMag q := by
  unfold roundMag
  exact mul_nonneg (Nat.cast_nonneg _) (two_zpow_pos _).le

theorem roundMag_of_nonpos (q : ℚ) (hq : q ≤ 0) : roundMag q = 0 := by
  unfold roundMag
  rw [roundHalfEven_of_nonpos _ (div_nonpos_of_nonpos_of_nonneg hq (two_zpow_pos _).le)]
  simp

theorem roundMag_err (q : ℚ) (hq : 0 ≤ q) : |roundMag q - q| ≤ 2 ^ ulpExp q / 2 := by
  have ht := two_zpow_pos (ulpExp q)
  have h := roundHalfEven_err (q / 2 ^ ulpExp q) (div_nonneg hq ht.le)
  have e : roundMag q - q = ((roundHalfEven (q / 2 ^ ulpExp q) : ℚ) - q / 2 ^ ulpExp q) * 2 ^ ulpExp q := by
    unfold roundMag
    field_simp
  rw [e, abs_mul, abs_of_pos ht]
  calc |(roundHalfEven (q / 2 ^ ulpExp q) : ℚ) - q / 2 ^ ulpExp q| * 2 ^ ulpExp q
      ≤ 1 / 2 * 2 ^ ulpExp q := mul_le_mul_of_nonneg_right h ht.le
    _ = 2 ^ ulpExp q / 2 := by ring

theorem le_roundMag_of_log (q : ℚ) (hq : 0 < q) (hl : -126 ≤ Int.log 2 q) :
    (2 : ℚ) ^ Int.log 2 q ≤ roundMag q := by
  have hu : ulpExp q = Int.log 2 q - 23 := by unfold ulpExp; exact max_eq_left (by omega)
  have ht := two_zpow_pos (ulpExp q)
  have hlog : (2 : ℚ) ^ Int.log 2 q ≤ q := by
    have := Int.zpow_log_le_self (R := ℚ) (b := 2) (by norm_num) hq
    simpa using this
  have hx : ((2 ^ 23 : ℕ) : ℚ) ≤ q / 2 ^ ulpExp q := by
    rw [le_div_iff₀ ht, hu]
    have : ((2 ^ 23 : ℕ) : ℚ) * 2 ^ (Int.log 2 q - 23) = 2 ^ Int.log 2 q := by
      rw [zpow_sub₀ (by norm_num)]
      push_cast
      norm_num
      ring
    rw [this]; exact hlog
  have hn : 2 ^ 23 ≤ roundHalfEven (q / 2 ^ ulpExp q) :=
    le_trans (Nat.le_floor hx) (floor_le_roundHalfEven _)
  have hn' : ((2 ^ 23 : ℕ) : ℚ) ≤ (roundHalfEven (q / 2 ^ ulpExp q) : ℚ) := by exact_mod_cast hn
  unfold roundMag
  calc (2 : ℚ) ^ Int.log 2 q = ((2 ^ 23 : ℕ) : ℚ) * 2 ^ ulpExp q := by
        rw [hu, zpow_sub₀ (by norm_num)]; push_cast; norm_num; ring
    _ ≤ _ := mul_le_mul_of_nonneg_right hn' ht.le

theorem roundMag_rel_err (q : ℚ) (hn : F32.minNormal ≤ roundMag q) :
    |roundMag q - q| ≤ roundMag q / 2 ^ 24 := by
  have hmin : (0 : ℚ) < F32.minNormal := by unfold F32.minNormal; positivity
  have hq : 0 < q := by
    by_contra hc
    rw [roundMag_of_nonpos q (not_lt.mp hc)] at hn
    linarith
  have herr := roundMag_err q hq.le
  by_cases hl : -126 ≤ Int.log 2 q
  · have hu : ulpExp q = Int.log 2 q - 23 := by unfold ulpExp; exact max_eq_left (by omega)
    have h1 := le_roundMag_of_log q hq hl
    have h2 : (2 : ℚ) ^ ulpExp q / 2 = 2 ^ Int.log 2 q / 2 ^ 24 := by
      rw [hu, zpow_sub₀ (by norm_num)]; norm_num; ring
    rw [h2] at herr
    exact le_trans herr (div_le_div_of_nonneg_right h1 (by positivity))
  · have hu : ulpExp q = -149 := by unfold ulpExp; exact max_eq_right (by omega)
    have h2 : (2 : ℚ) ^ ulpExp q / 2 = F32.minNormal / 2 ^ 24 := by
      rw [hu]; unfold F32.minNormal; norm_num
    rw [h2] at herr
    exact le_trans herr (div_le_div_of_nonneg_right hn (by positivity))

theorem le_of_rel_err {r q : ℚ} (h : |r - q| ≤ |r| / 2 ^ 24) :
    (1 - 1 / 2 ^ 24) * |r| ≤ |q| := by
  have h1 : |r| - |q| ≤ |r - q| := abs_sub_abs_le_abs_sub r q
  linarith

theorem round_trip_bound (K1 K2 X Y Z : ℚ)
    (hK : |K1 * K2 - 1| ≤ |K1 * K2| / 2 ^ 24)
    (hY : |Y - X * K1| ≤ |Y| / 2 ^ 24)
    (hZ : |Z - Y * K2| ≤ |Z| / 2 ^ 24) :
    |Z - X| ≤ |X| / 2 ^ 22 := by
  have hw := le_of_rel_err hK
  have hy := le_of_rel_err hY
  have hz := le_of_rel_err hZ
  rw [abs_one] at hw
  rw [abs_mul] at hy hz
  have hX := abs_nonneg X
  have hK2 := abs_nonneg K2
  -- atoms
  have ht : (1 - 1 / 2 ^ 24) * (|X| * |K1 * K2|) ≤ |X| := by
    have := mul_le_mul_of_nonneg_left hw hX
    linarith
  have hy2 : (1 - 1 / 2 ^ 24) * (|Y| * |K2|) ≤ |X| * |K1 * K2| := by
    have := mul_le_mul_of_nonneg_right hy hK2
    rw [abs_mul]
    linarith
  have split : Z - X = (Z - Y * K2) + (Y - X * K1) * K2 + X * (K1 * K2 - 1) := by ring
  have e1 : |(Y - X * K1) * K2| ≤ |Y| * |K2| / 2 ^ 24 := by
    rw [abs_mul]
    have := mul_le_mul_of_nonneg_right hY hK2
    linarith
  have e2 : |X * (K1 * K2 - 1)| ≤ |X| * |K1 * K2| / 2 ^ 24 := by
    rw [abs_mul]
    have := mul_le_mul_of_nonneg_left hK hX
    linarith
  have tri : |Z - X| ≤ |Z - Y * K2| + |(Y - X * K1) * K2| + |X * (K1 * K2 - 1)| := by
    rw [split]
    exact (abs_add _ _).trans (add_le_add_right (abs_add _ _) _)
  have hZn := abs_nonneg Z
  have hYn : 0 ≤ |Y| * |K2| := mul_nonneg (abs_nonneg _) hK2
  have hTn : 0 ≤ |X| * |K1 * K2| := mul_nonneg hX (abs_nonneg _)
  norm_num at ht hy2 hz e1 e2 hZ ⊢
  linarith

theorem additive_bound (A B K S L P1 P2 R : ℚ)
    (hS : |S - (A + B)| ≤ |S| / 2 ^ 24) (hL : |L - S * K| ≤ |L| / 2 ^ 24)
    (hP1 : |P1 - A * K| ≤ |P1| / 2 ^ 24) (hP2 : |P2 - B * K| ≤ |P2| / 2 ^ 24)
    (hR : |R - (P1 + P2)| ≤ |R| / 2 ^ 24) :
    |L - R| ≤ (|A| + |B|) * |K| / 2 ^ 21 := by
  have hs := le_of_rel_err hS
  have hl := le_of_rel_err hL
  have hp1 := le_of_rel_err hP1
  have hp2 := le_of_rel_err hP2
  have hr := le_of_rel_err hR
  rw [abs_mul] at hl hp1 hp2
  have hK := abs_nonneg K
  have hAB : |A + B| ≤ |A| + |B| := abs_add A B
  have hP12 : |P1 + P2| ≤ |P1| + |P2| := abs_add P1 P2
  have hsK : (1 - 1 / 2 ^ 24) * (|S| * |K|) ≤ (|A| + |B|) * |K| := by
    have := mul_le_mul_of_nonneg_right (hs.trans hAB) hK
    linarith
  have e1 : |(S - (A + B)) * K| ≤ |S| * |K| / 2 ^ 24 := by
    rw [abs_mul]
    have := mul_le_mul_of_nonneg_right hS hK
    linarith
  have split : L - R = (L - S * K) + (S - (A + B)) * K - (P1 - A * K) - (P2 - B * K)
      - (R - (P1 + P2)) := by ring
  have tri : |L - R| ≤ |L - S * K| + |(S - (A + B)) * K| + |P1 - A * K| + |P2 - B * K|
      + |R - (P1 + P2)| := by
    rw [split]
    refine (abs_sub _ _).trans (add_le_add_right ?_ _)
    refine (abs_sub _ _).trans (add_le_add_right ?_ _)
    refine (abs_sub _ _).trans (add_le_add_right ?_ _)
    exact abs_add _ _
  have n1 := abs_nonneg L
  have n2 := abs_nonneg R
  have n3 := abs_nonneg P1
  have n4 := abs_nonneg P2
  have n5 : 0 ≤ |S| * |K| := mul_nonneg (abs_nonneg _) hK
  have n6 : 0 ≤ |A| * |K| := mul_nonneg (abs_nonneg _) hK
  have n7 : 0 ≤ |B| * |K| := mul_nonneg (abs_nonneg _) hK
  have hr' : (1 - 1 / 2 ^ 24) * |R| ≤ |P1| + |P2| := hr.trans hP12
  norm_num at hsK hl hp1 hp2 hr' e1 hL hP1 hP2 hR ⊢
  have ex : (|A| + |B|) * |K| = |A| * |K| + |B| * |K| := by ring
  rw [ex] at hsK ⊢
  linarith

theorem homogeneous_bound (C A K T L P R : ℚ)
    (hT : |T - C * A| ≤ |T| / 2 ^ 24) (hL : |L - T * K| ≤ |L| / 2 ^ 24)
    (hP : |P - A * K| ≤ |P| / 2 ^ 24) (hR : |R - C * P| ≤ |R| / 2 ^ 24) :
    |L - R| ≤ |C * A * K| / 2 ^ 21 := by
  have ht := le_of_rel_err hT
  have hl := le_of_rel_err hL
  have hp := le_of_rel_err hP
  have hr := le_of_rel_err hR
  rw [abs_mul] at ht hl hp hr
  have hK := abs_nonneg K
  have hC := abs_nonneg C
  have htK : (1 - 1 / 2 ^ 24) * (|T| * |K|) ≤ |C| * |A| * |K| := by
    have := mul_le_mul_of_nonneg_right ht hK
    linarith
  have hCP : (1 - 1 / 2 ^ 24) * (|C| * |P|) ≤ |C| * |A| * |K| := by
    have := mul_le_mul_of_nonneg_left hp hC
    linarith
  have e1 : |(T - C * A) * K| ≤ |T| * |K| / 2 ^ 24 := by
    rw [abs_mul]
    have := mul_le_mul_of_nonneg_right hT hK
    linarith
  have e2 : |C * (P - A * K)| ≤ |C| * |P| / 2 ^ 24 := by
    rw [abs_mul]
    have := mul_le_mul_of_nonneg_left hP hC
    linarith
  have split : L - R = (L - T * K) + (T - C * A) * K - C * (P - A * K) - (R - C * P) := by ring
  have tri : |L - R| ≤ |L - T * K| + |(T - C * A) * K| + |C * (P - A * K)| + |R - C * P| := by
    rw [split]
    refine (abs_sub _ _).trans (add_le_add_right ?_ _)
    refine (abs_sub _ _).trans (add_le_add_right ?_ _)
    exact abs_add _ _
  have n1 := abs_nonneg L
  have n2 := abs_nonneg R
  have n3 : 0 ≤ |T| * |K| := mul_nonneg (abs_nonneg _) hK
  have n4 : 0 ≤ |C| * |P| := mul_nonneg hC (abs_nonneg _)
  rw [abs_mul, abs_mul]
  norm_num at htK hCP hl hr e1 e2 hL hR ⊢
  linarith

namespace F32

theorem minNormal_pos : (0 : ℚ) < minNormal := by unfold minNormal; positivity

theorem isNormal_round {s : Bool} {q : ℚ} (h : (round s q).isNormal = true) :
    round s q = fin s (roundMag q) ∧ minNormal ≤ roundMag q := by
  unfold round at h ⊢
  split_ifs at h ⊢ with c
  · simp [isNormal] at h
  · simp only [isNormal, decide_eq_true_eq] at h
    exact ⟨rfl, h.1⟩

theorem abs_val_fin (s : Bool) (a : ℚ) : |(fin s a).val| = |a| := by
  cases s <;> simp [val]

theorem val_sub_mul (s t : Bool) (r a b : ℚ) :
    |(fin (xor s t) r).val - (fin s a).val * (fin t b).val| = |r - a * b| := by
  cases s <;> cases t <;> simp only [val, Bool.xor_false, Bool.xor_true, Bool.not_false,
    Bool.not_true, if_true, if_false, Bool.false_eq_true]
  · rw [← abs_neg]; ring_nf
  · rw [← abs_neg]; ring_nf
  · ring_nf

theorem val_sub_div (s t : Bool) (r a b : ℚ) :
    |(fin (xor s t) r).val - (fin s a).val / (fin t b).val| = |r - a / b| := by
  cases s <;> cases t <;> simp only [val, Bool.xor_false, Bool.xor_true, Bool.not_false,
    Bool.not_true, if_true, if_false, Bool.false_eq_true]
  · rw [← abs_neg, div_neg]; ring_nf
  · rw [← abs_neg, neg_div]; ring_nf
  · rw [neg_div_neg_eq]

/-- A product that comes out normal is within `2 ^ (-24)` of the exact product, relative to
the result. -/
theorem mul_err (a b : F32) (h : (mul a b).isNormal = true) :
    |(mul a b).val - a.val * b.val| ≤ |(mul a b).val| / 2 ^ 24 := by
  cases a with
  | nan => simp [mul, isNormal] at h
  | inf s =>
    cases b with
    | nan => simp [mul, isNormal] at h
    | inf t => simp [mul, isNormal] at h
    | fin t b => simp only [mul] at h; split_ifs at h <;> simp [isNormal] at h
  | fin s a =>
    cases b with
    | nan => simp [mul, isNormal] at h
    | inf t => simp only [mul] at h; split_ifs at h <;> simp [isNormal] at h
    | fin t b =>
      have e : mul (fin s a) (fin t b) = round (xor s t) (a * b) := rfl
      rw [e] at h ⊢
      obtain ⟨e2, hn⟩ := isNormal_round h
      rw [e2, val_sub_mul, abs_val_fin, abs_of_nonneg (roundMag_nonneg _)]
      exact roundMag_rel_err _ hn

/-- A quotient that comes out normal is within `2 ^ (-24)` of the exact quotient, relative to
the result. -/
theorem div_err (a b : F32) (h : (div a b).isNormal = true) :
    |(div a b).val - a.val / b.val| ≤ |(div a b).val| / 2 ^ 24 := by
  cases a with
  | nan => simp [div, isNormal] at h
  | inf s =>
    cases b with
    | nan => simp [div, isNormal] at h
    | inf t => simp [div, isNormal] at h
    | fin t b => simp [div, isNormal] at h
  | fin s a =>
    cases b with
    | nan => simp [div, isNormal] at h
    | inf t =>
      simp only [div, isNormal, decide_eq_true_eq] at h
      have := minNormal_pos
      linarith [h.1]
    | fin t b =>
      simp only [div] at h ⊢
      split_ifs at h ⊢ with hb ha
      · simp [isNormal] at h
      · simp [isNormal] at h
      · obtain ⟨e2, hn⟩ := isNormal_round h
        rw [e2, val_sub_div, abs_val_fin, abs_of_nonneg (roundMag_nonneg _)]
        exact roundMag_rel_err _ hn

/-- A sum that comes out normal is within `2 ^ (-24)` of the exact sum, relative to the
result. -/
theorem add_err (a b : F32) (h : (add a b).isNormal = true) :
    |(add a b).val - (a.val + b.val)| ≤ |(add a b).val| / 2 ^ 24 := by
  cases a with
  | nan => simp [add, isNormal] at h
  | inf s =>
    cases b with
    | nan => simp [add, isNormal] at h
    | inf t => simp only [add] at h; split_ifs at h <;> simp [isNormal] at h
    | fin t b => simp [add, isNormal] at h
  | fin s a =>
    cases b with
    | nan => simp [add, isNormal] at h
    | inf t => simp [add, isNormal] at h
    | fin t b =>
      simp only [add] at h ⊢
      split_ifs at h ⊢ with h1 h2 h3
      · subst h1
        obtain ⟨e2, hn⟩ := isNormal_round h
        have hv : |(fin s (roundMag (a + b))).val - ((fin s a).val + (fin s b).val)| =
            |roundMag (a + b) - (a + b)| := by
          cases s <;> simp only [val, if_true, if_false, Bool.false_eq_true]
          rw [← abs_neg]; ring_nf
        rw [e2, hv, abs_val_fin, abs_of_nonneg (roundMag_nonneg _)]
        exact roundMag_rel_err _ hn
      · simp only [isNormal, decide_eq_true_eq] at h
        linarith [h.1, minNormal_pos]
      · obtain ⟨e2, hn⟩ := isNormal_round h
        have hv : |(fin s (roundMag (a - b))).val - ((fin s a).val + (fin t b).val)| =
            |roundMag (a - b) - (a - b)| := by
          cases s <;> cases t <;> simp only [val, if_true, if_false, Bool.false_eq_true]
          · exact absurd rfl h1
          · congr 1; ring
          · rw [← abs_neg]; congr 1; ring
          · exact absurd rfl h1
        rw [e2, hv, abs_val_fin, abs_of_nonneg (roundMag_nonneg _)]
        exact roundMag_rel_err _ hn
      · obtain ⟨e2, hn⟩ := isNormal_round h
        have hv : |(fin t (roundMag (b - a))).val - ((fin s a).val + (fin t b).val)| =
            |roundMag (b - a) - (b - a)| := by
          cases s <;> cases t <;> simp only [val, if_true, if_false, Bool.false_eq_true]
          · exact absurd rfl h1
          · rw [← abs_neg]; congr 1; ring
          · congr 1; ring
          · exact absurd rfl h1
        rw [e2, hv, abs_val_fin, abs_of_nonneg (roundMag_nonneg _)]
        exact roundMag_rel_err _ hn

end F32

/-! ## Round trips through the scale (C1) -/

namespace Sandbox

theorem ofRat_small :
    F32.ofRat 0 = F32.fin false 0 ∧ F32.ofRat 1 = F32.fin false 1 := by
  decide!

theorem val_ofRat_one : (F32.ofRat 1).val = 1 := by
  rw [ofRat_small.2]; rfl

/-- A positive scale whose stored inverse `1.0f / p` is a normal number: the exact product
of the two stored numbers is within `2 ^ (-24)` of one, relative to itself, and `p` denotes a
positive rational. -/
theorem inverse_err (p : F32) (hpos : F32.lt (F32.ofRat 0) p = true)
    (hm : (F32.div (F32.ofRat 1) p).isNormal = true) :
    0 < p.val ∧
    |(F32.div (F32.ofRat 1) p).val * p.val - 1| ≤
      |(F32.div (F32.ofRat 1) p).val * p.val| / 2 ^ 24 := by
  have hd := F32.div_err _ _ hm
  rw [val_ofRat_one] at hd
  have hP : 0 < p.val := by
    cases p with
    | nan => rw [ofRat_small.1] at hpos; simp [F32.lt] at hpos
    | inf t =>
      rw [ofRat_small.2] at hm
      simp only [F32.div, F32.isNormal, decide_eq_true_eq] at hm
      have := F32.minNormal_pos
      linarith [hm.1]
    | fin t b =>
      rw [ofRat_small.1] at hpos
      simp only [F32.lt, decide_eq_true_eq] at hpos
      simpa [F32.val] using hpos
  refine ⟨hP, ?_⟩
  have e : (F32.div (F32.ofRat 1) p).val * p.val - 1 =
      ((F32.div (F32.ofRat 1) p).val - 1 / p.val) * p.val := by
    field_simp
  rw [e, abs_mul, abs_mul, abs_of_pos hP]
  have := mul_le_mul_of_nonneg_right hd hP.le
  linarith

end Sandbox

/-! ## Configuration setters (C8) -/

namespace Sandbox

/-- C8: `setVelocityIterations`, `setPositionIterations` and `setTimeStep` each store exactly
their argument in their own member and change no other member: the other two settings, the
scale and its inverse and the mouse constraint are as before, and putting the old value back
gives the old Sandbox, so nothing else changed either.  In particular `toPhysics` and
`toPoints` return what they returned before, for every argument type. -/
theorem setters_store_and_frame (s : Sandbox) (vi pi : Int) (hz : F32) :
    ((s.setVelocityIterations vi).mVelocityIterations = vi ∧
      (s.setVelocityIterations vi).mPositionIterations = s.mPositionIterations ∧
      (s.setVelocityIterations vi).mTimeStep = s.mTimeStep ∧
      (s.setVelocityIterations vi).mPointsPerMeter = s.mPointsPerMeter ∧
      (s.setVelocityIterations vi).mMetersPerPoint = s.mMetersPerPoint ∧
      (s.setVelocityIterations vi).mMouseJoint = s.mMouseJoint ∧
      { s.setVelocityIterations vi with mVelocityIterations := s.mVelocityIterations } = s) ∧
    ((s.setPositionIterations pi).mPositionIterations = pi ∧
      (s.setPositionIterations pi).mVelocityIterations = s.mVelocityIterations ∧
      (s.setPositionIterations pi).mTimeStep = s.mTimeStep ∧
      (s.setPositionIterations pi).mPointsPerMeter = s.mPointsPerMeter ∧
      (s.setPositionIterations pi).mMetersPerPoint = s.mMetersPerPoint ∧
      (s.setPositionIterations pi).mMouseJoint = s.mMouseJoint ∧
      { s.setPositionIterations pi with mPositionIterations := s.mPositionIterations } = s) ∧
    ((s.setTimeStep hz).mTimeStep = hz ∧
      (s.setTimeStep hz).mVelocityIterations = s.mVelocityIterations ∧
      (s.setTimeStep hz).mPositionIterations = s.mPositionIterations ∧
      (s.setTimeStep hz).mPointsPerMeter = s.mPointsPerMeter ∧
      (s.setTimeStep hz).mMetersPerPoint = s.mMetersPerPoint ∧
      (s.setTimeStep hz).mMouseJoint = s.mMouseJoint ∧
      { s.setTimeStep hz with mTimeStep := s.mTimeStep } = s) ∧
    (∀ (T : Type) [HMul T F32 T] (x : T),
      ((s.setVelocityIterations vi).toPhysics x = s.toPhysics x ∧
        (s.setVelocityIterations vi).toPoints x = s.toPoints x) ∧
      ((s.setPositionIterations pi).toPhysics x = s.toPhysics x ∧
        (s.setPositionIterations pi).toPoints x = s.toPoints x) ∧
      ((s.setTimeStep hz).toPhysics x = s.toPhysics x ∧
        (s.setTimeStep hz).toPoints x = s.toPoints x)) :=
  ⟨⟨rfl, rfl, rfl, rfl, rfl, rfl, rfl⟩, ⟨rfl, rfl, rfl, rfl, rfl, rfl, rfl⟩,
    ⟨rfl, rfl, rfl, rfl, rfl, rfl, rfl⟩,
    fun _ _ _ => ⟨⟨rfl, rfl⟩, ⟨rfl, rfl⟩, ⟨rfl, rfl⟩⟩⟩

/-! ## The default scale (C2) -/

theorem default_scale_values :
    F32.ofRat 50 = F32.fin false 50 ∧
    F32.div (F32.ofRat 1) (F32.ofRat 50) = F32.fin false (10737418 / 2 ^ 29) ∧
    F32.mul (F32.ofRat 1) (F32.ofRat 50) = F32.ofRat 50 ∧
    F32.mul (F32.ofRat 50) (F32.div (F32.ofRat 1) (F32.ofRat 50)) = F32.ofRat 1 ∧
    F32.mul (F32.ofRat 5) (F32.div (F32.ofRat 1) (F32.ofRat 50)) =
      F32.fin false (13421772 / 2 ^ 27) ∧
    F32.ofRat (1 / 10) = F32.fin false (13421773 / 2 ^ 27) := by
  decide!

/-- C2 (as stated, refuted): in a freshly constructed Sandbox `toPhysics(5.0f)` is neither
the rational `1/10` nor the `float` nearest to it, `0.1f`; `5.0f` itself is a `float`. -/
theorem toPhysics_five_ne_one_tenth :
    (F32.ofRat 5).isFloat = true ∧
    (sample.toPhysics (F32.ofRat 5)).val ≠ 1 / 10 ∧
    sample.toPhysics (F32.ofRat 5) ≠ F32.ofRat (1 / 10) ∧
    F32.eq (sample.toPhysics (F32.ofRat 5)) (F32.ofRat (1 / 10)) = false := by
  decide!

/-- C2 (amended): in a freshly constructed Sandbox the scale is 50 points per meter,
`toPoints(1) == 50` and `toPhysics(50) == 1` exactly, while `toPhysics(5)` is the `float`
`13421772 / 2^27` (0.099999994), which lies `1/167772160` below one decimeter. -/
theorem fresh_scale (bounds : b2AABB) (view : Rectf) (filter : b2ContactFilter)
    (renderer : Box2DRenderer) :
    (fresh bounds view filter renderer).mPointsPerMeter = F32.fin false 50 ∧
    (fresh bounds view filter renderer).toPoints (F32.ofRat 1) = F32.ofRat 50 ∧
    (fresh bounds view filter renderer).toPhysics (F32.ofRat 50) = F32.ofRat 1 ∧
    (fresh bounds view filter renderer).toPhysics (F32.ofRat 5) =
      F32.fin false (13421772 / 2 ^ 27) ∧
    1 / 10 - ((fresh bounds view filter renderer).toPhysics (F32.ofRat 5)).val =
      1 / 167772160 := by
  obtain ⟨h1, -, h3, h4, h5, -⟩ := default_scale_values
  refine ⟨h1, h3, h4, h5, ?_⟩
  have e : (fresh bounds view filter renderer).toPhysics (F32.ofRat 5) =
      F32.fin false (13421772 / 2 ^ 27) := h5
  rw [e]
  norm_num [F32.val]

/-- C1 (as stated, refuted): the freshly constructed Sandbox has scale `50 > 0` with
`mMetersPerPoint` its inverse, `5.0f` is a `float`, and yet `toPoints(toPhysics(5.0f))` is
not `5.0f`. -/
theorem toPoints_toPhysics_five_ne :
    F32.lt (F32.ofRat 0) sample.mPointsPerMeter = true ∧
    sample.mMetersPerPoint = F32.div (F32.ofRat 1) sample.mPointsPerMeter ∧
    (F32.ofRat 5).isFloat = true ∧
    sample.toPoints (sample.toPhysics (F32.ofRat 5)) = F32.fin false (10485759 / 2 ^ 21) ∧
    sample.toPoints (sample.toPhysics (F32.ofRat 5)) ≠ F32.ofRat 5 ∧
    F32.eq (sample.toPoints (sample.toPhysics (F32.ofRat 5))) (F32.ofRat 5) = false := by
  decide!

/-- C1 (amended): for every Sandbox whose scale `s` is `> 0` and whose `mMetersPerPoint` is
the `float` inverse `1.0f / s`, a normal number, the round trip is exact up to rounding:
whenever `toPhysics(x)` and `toPoints(toPhysics(x))` are normal numbers (no overflow, no
underflow), `|toPoints(toPhysics(x)) - x| ≤ 2^-22 * |x|`; for a 2D vector the same holds in
each component. -/
theorem toPoints_toPhysics_near (s : Sandbox)
    (hpos : F32.lt (F32.ofRat 0) s.mPointsPerMeter = true)
    (hinv : s.mMetersPerPoint = F32.div (F32.ofRat 1) s.mPointsPerMeter)
    (hm : s.mMetersPerPoint.isNormal = true) :
    (∀ x : F32, (s.toPhysics x).isNormal = true →
      (s.toPoints (s.toPhysics x)).isNormal = true →
      |(s.toPoints (s.toPhysics x)).val - x.val| ≤ |x.val| / 2 ^ 22) ∧
    (∀ v : Vec2f, (s.toPhysics v).x.isNormal = true → (s.toPhysics v).y.isNormal = true →
      (s.toPoints (s.toPhysics v)).x.isNormal = true →
      (s.toPoints (s.toPhysics v)).y.isNormal = true →
      |(s.toPoints (s.toPhysics v)).x.val - v.x.val| ≤ |v.x.val| / 2 ^ 22 ∧
      |(s.toPoints (s.toPhysics v)).y.val - v.y.val| ≤ |v.y.val| / 2 ^ 22) := by
  have hK := (inverse_err s.mPointsPerMeter hpos (hinv ▸ hm)).2
  rw [← hinv] at hK
  have key : ∀ x : F32, (F32.mul x s.mMetersPerPoint).isNormal = true →
      (F32.mul (F32.mul x s.mMetersPerPoint) s.mPointsPerMeter).isNormal = true →
      |(F32.mul (F32.mul x s.mMetersPerPoint) s.mPointsPerMeter).val - x.val| ≤
        |x.val| / 2 ^ 22 := fun x h1 h2 =>
    round_trip_bound _ _ _ _ _ hK (F32.mul_err _ _ h1) (F32.mul_err _ _ h2)
  exact ⟨key, fun v hx hy hx2 hy2 => ⟨key v.x hx hx2, key v.y hy hy2⟩⟩

/-- C1, witness: the default scale and `x = 5.0f` meet every hypothesis, and the round trip
lands within `2^-22 * 5` of `5`. -/
theorem toPoints_toPhysics_near_witness :
    |(sample.toPoints (sample.toPhysics (F32.ofRat 5))).val - (F32.ofRat 5).val| ≤
      |(F32.ofRat 5).val| / 2 ^ 22 :=
  (toPoints_toPhysics_near sample (by decide!) (by decide!) (by decide!)).1 (F32.ofRat 5)
    (by decide!) (by decide!)

/-! ## The scale invariant (C10) -/

theorem roundMag_normal_of_near_one (q : ℚ) (h1 : 1 / 2 ≤ q) (h2 : q ≤ 2) :
    F32.minNormal ≤ roundMag q ∧ roundMag q ≤ F32.maxFinite := by
  have hq : 0 < q := by linarith
  have hl : (-1 : ℤ) ≤ Int.log 2 q := by
    have := (Int.zpow_le_iff_le_log (R := ℚ) (b := 2) (by norm_num) hq (x := -1)).mp
      (by norm_num; linarith)
    exact this
  have hlow := le_roundMag_of_log q hq (by omega)
  have hpow : (2 : ℚ) ^ (-1 : ℤ) ≤ 2 ^ Int.log 2 q := zpow_le_zpow_right₀ (by norm_num) hl
  have hlog : (2 : ℚ) ^ Int.log 2 q ≤ q := by
    have := Int.zpow_log_le_self (R := ℚ) (b := 2) (by norm_num) hq
    simpa using this
  have hu : ulpExp q = Int.log 2 q - 23 := by unfold ulpExp; exact max_eq_left (by omega)
  have herr := roundMag_err q hq.le
  have h3 : (2 : ℚ) ^ ulpExp q / 2 = 2 ^ Int.log 2 q / 2 ^ 24 := by
    rw [hu, zpow_sub₀ (by norm_num)]; norm_num; ring
  rw [h3, abs_le] at herr
  constructor
  · unfold F32.minNormal
    have : (1 : ℚ) / 2 ^ 126 ≤ 2 ^ (-1 : ℤ) := by norm_num
    linarith
  · unfold F32.maxFinite
    have : (2 : ℚ) ^ Int.log 2 q / 2 ^ 24 ≤ q / 2 ^ 24 :=
      div_le_div_of_nonneg_right hlog (by positivity)
    have : roundMag q ≤ 3 := by norm_num at this herr ⊢; linarith [herr.2]
    norm_num
    linarith

theorem near_one_of_rel_err {q : ℚ} (h : |q - 1| ≤ |q| / 2 ^ 24) :
    1 / 2 ≤ q ∧ q ≤ 2 ∧ |q - 1| ≤ 1 / 2 ^ 23 := by
  have hq : 0 ≤ q := by
    by_contra hc
    have hneg : q < 0 := not_le.mp hc
    rw [abs_of_neg (by linarith : q - 1 < 0), abs_of_neg hneg] at h
    norm_num at h
    linarith
  rw [abs_of_nonneg hq] at h
  have h' := abs_le.mp h
  norm_num at h'
  refine ⟨by linarith [h'.1], by linarith [h'.2], ?_⟩
  have : q / 2 ^ 24 ≤ 1 / 2 ^ 23 := by norm_num; linarith [h'.2]
  exact h.trans this

/-- The shape of a Sandbox that satisfies `ScaleOk`: the scale is a positive finite number
and the stored inverse is the rounded reciprocal. -/
theorem scaleOk_shape (s : Sandbox) (h : s.ScaleOk) :
    ∃ b : ℚ, 0 < b ∧ s.mPointsPerMeter = F32.fin false b ∧
      s.mMetersPerPoint = F32.fin false (roundMag (1 / b)) := by
  obtain ⟨hpos, hinv, hm⟩ := h
  rw [hinv] at hm
  have hP := (inverse_err _ hpos hm).1
  cases hp : s.mPointsPerMeter with
  | nan => rw [hp, ofRat_small.1] at hpos; simp [F32.lt] at hpos
  | inf t => rw [hp] at hP; simp [F32.val] at hP
  | fin t b =>
    rw [hp, ofRat_small.2] at hm
    rw [hp, ofRat_small.2] at hinv
    simp only [F32.div] at hm hinv
    have hb : b ≠ 0 := by
      intro hb0
      rw [if_pos hb0] at hm
      simp [F32.isNormal] at hm
    rw [if_neg hb] at hm hinv
    obtain ⟨e, hn⟩ := F32.isNormal_round hm
    have hbpos : 0 < b := by
      by_contra hc
      have : 1 / b ≤ 0 := by
        rw [one_div]; exact inv_nonpos.mpr (not_lt.mp hc)
      rw [roundMag_of_nonpos _ this] at hn
      linarith [F32.minNormal_pos]
    have ht : t = false := by
      cases t
      · rfl
      · rw [hp] at hP; simp only [F32.val, if_true] at hP; linarith
    subst ht
    exact ⟨b, hbpos, rfl, by rw [hinv, e]; rfl⟩

/-- Under `ScaleOk` the `float` product `mMetersPerPoint * mPointsPerMeter` is a normal
number within `2 ^ (-22)` of one. -/
theorem scale_product_near_one (s : Sandbox) (h : s.ScaleOk) :
    (F32.mul s.mMetersPerPoint s.mPointsPerMeter).isNormal = true ∧
    |(F32.mul s.mMetersPerPoint s.mPointsPerMeter).val - 1| ≤ 1 / 2 ^ 22 := by
  have hK := (inverse_err s.mPointsPerMeter h.1 (h.2.1 ▸ h.2.2)).2
  rw [← h.2.1] at hK
  obtain ⟨hlo, hhi, hnear⟩ := near_one_of_rel_err hK
  obtain ⟨b, hb, hp, hmm⟩ := scaleOk_shape s h
  have hv : s.mMetersPerPoint.val * s.mPointsPerMeter.val = roundMag (1 / b) * b := by
    rw [hp, hmm]; simp [F32.val]
  have hnorm : (F32.mul s.mMetersPerPoint s.mPointsPerMeter).isNormal = true := by
    rw [hp, hmm]
    have hb2 := roundMag_normal_of_near_one (roundMag (1 / b) * b) (hv ▸ hlo) (hv ▸ hhi)
    simp only [F32.mul, F32.round]
    rw [if_neg (not_lt.mpr hb2.2)]
    simp only [F32.isNormal, decide_eq_true_eq]
    exact hb2
  refine ⟨hnorm, ?_⟩
  have he := F32.mul_err _ _ hnorm
  have hle := le_of_rel_err he
  have habs : |s.mMetersPerPoint.val * s.mPointsPerMeter.val| ≤ 2 := by
    rw [abs_of_nonneg (by linarith)]; exact hhi
  have tri : |(F32.mul s.mMetersPerPoint s.mPointsPerMeter).val - 1| ≤
      |(F32.mul s.mMetersPerPoint s.mPointsPerMeter).val -
        s.mMetersPerPoint.val * s.mPointsPerMeter.val| +
      |s.mMetersPerPoint.val * s.mPointsPerMeter.val - 1| := abs_sub_le _ _ _
  have hq : |s.mMetersPerPoint.val * s.mPointsPerMeter.val| ≤ 1 + 1 / 2 ^ 23 := by
    have := abs_sub_abs_le_abs_sub (s.mMetersPerPoint.val * s.mPointsPerMeter.val) 1
    rw [abs_one] at this
    linarith
  norm_num at he hle hnear hq tri ⊢
  linarith

theorem toPhysics_toPoints_err (s : Sandbox) (h : s.ScaleOk) (x : F32)
    (h1 : (F32.mul x s.mPointsPerMeter).isNormal = true)
    (h2 : (F32.mul (F32.mul x s.mPointsPerMeter) s.mMetersPerPoint).isNormal = true) :
    |(F32.mul (F32.mul x s.mPointsPerMeter) s.mMetersPerPoint).val - x.val| ≤
      |x.val| / 2 ^ 22 := by
  have hK := (inverse_err s.mPointsPerMeter h.1 (h.2.1 ▸ h.2.2)).2
  rw [← h.2.1, mul_comm] at hK
  exact round_trip_bound _ _ _ _ _ hK (F32.mul_err _ _ h1) (F32.mul_err _ _ h2)

theorem toPoints_toPhysics_err (s : Sandbox) (h : s.ScaleOk) (x : F32)
    (h1 : (F32.mul x s.mMetersPerPoint).isNormal = true)
    (h2 : (F32.mul (F32.mul x s.mMetersPerPoint) s.mPointsPerMeter).isNormal = true) :
    |(F32.mul (F32.mul x s.mMetersPerPoint) s.mPointsPerMeter).val - x.val| ≤
      |x.val| / 2 ^ 22 := by
  have hK := (inverse_err s.mPointsPerMeter h.1 (h.2.1 ▸ h.2.2)).2
  rw [← h.2.1] at hK
  exact round_trip_bound _ _ _ _ _ hK (F32.mul_err _ _ h1) (F32.mul_err _ _ h2)

/-- C10 (as stated, refuted): `setPointsPerMeter(41.0f)` has a positive `float` argument, yet
afterwards `mMetersPerPoint * mPointsPerMeter` is `1 - 2^-24`, not `1`, and
`toPhysics(toPoints(1.0f))` is `1 - 2^-24`, not `1.0f`.  Even in the freshly constructed
Sandbox, where the product is `1`, `toPoints(toPhysics(10.0f))` is not `10.0f`. -/
theorem setPointsPerMeter_41_breaks_inverse :
    F32.eq (sample.toPoints (sample.toPhysics (F32.ofRat 10))) (F32.ofRat 10) = false ∧
    F32.lt (F32.ofRat 0) (F32.ofRat 41) = true ∧
    (F32.ofRat 41).isFloat = true ∧
    F32.mul (sample.setPointsPerMeter (F32.ofRat 41)).mMetersPerPoint
        (sample.setPointsPerMeter (F32.ofRat 41)).mPointsPerMeter =
      F32.fin false (16777215 / 2 ^ 24) ∧
    F32.eq (F32.mul (sample.setPointsPerMeter (F32.ofRat 41)).mMetersPerPoint
        (sample.setPointsPerMeter (F32.ofRat 41)).mPointsPerMeter) (F32.ofRat 1) = false ∧
    (sample.setPointsPerMeter (F32.ofRat 41)).toPhysics
        ((sample.setPointsPerMeter (F32.ofRat 41)).toPoints (F32.ofRat 1)) =
      F32.fin false (16777215 / 2 ^ 24) ∧
    F32.eq ((sample.setPointsPerMeter (F32.ofRat 41)).toPhysics
        ((sample.setPointsPerMeter (F32.ofRat 41)).toPoints (F32.ofRat 1))) (F32.ofRat 1) =
      false := by
  decide!

/-- C10 (amended): with `ScaleOk` for "the scale is positive and `mMetersPerPoint` is its
`float` inverse, a normal number":
(a) a freshly constructed Sandbox satisfies `ScaleOk`, and there the `float` product
`mMetersPerPoint * mPointsPerMeter` is exactly `1`;
(b) `setVelocityIterations`, `setPositionIterations` and `setTimeStep` leave both scale
members alone and preserve `ScaleOk`;
(c) `setPointsPerMeter(p)` with `p > 0` whose `float` inverse is normal establishes `ScaleOk`
with `mPointsPerMeter == p`;
(d) under `ScaleOk` the `float` product `mMetersPerPoint * mPointsPerMeter` is within `2^-22`
of `1`, and the conversions are mutual inverses up to rounding in both directions:
`|toPoints(toPhysics(x)) - x| ≤ 2^-22 |x|` and `|toPhysics(toPoints(x)) - x| ≤ 2^-22 |x|`
whenever the two intermediate results are normal numbers. -/
theorem scale_invariant_up_to_rounding :
    (∀ (bounds : b2AABB) (view : Rectf) (filter : b2ContactFilter) (renderer : Box2DRenderer),
      (fresh bounds view filter renderer).ScaleOk ∧
      F32.mul (fresh bounds view filter renderer).mMetersPerPoint
        (fresh bounds view filter renderer).mPointsPerMeter = F32.ofRat 1) ∧
    (∀ (s : Sandbox) (vi pi : Int) (hz : F32),
      ((s.setVelocityIterations vi).mPointsPerMeter = s.mPointsPerMeter ∧
        (s.setVelocityIterations vi).mMetersPerPoint = s.mMetersPerPoint) ∧
      ((s.setPositionIterations pi).mPointsPerMeter = s.mPointsPerMeter ∧
        (s.setPositionIterations pi).mMetersPerPoint = s.mMetersPerPoint) ∧
      ((s.setTimeStep hz).mPointsPerMeter = s.mPointsPerMeter ∧
        (s.setTimeStep hz).mMetersPerPoint = s.mMetersPerPoint) ∧
      (s.ScaleOk → (s.setVelocityIterations vi).ScaleOk ∧
        (s.setPositionIterations pi).ScaleOk ∧ (s.setTimeStep hz).ScaleOk)) ∧
    (∀ (s : Sandbox) (p : F32), F32.lt (F32.ofRat 0) p = true →
      (F32.div (F32.ofRat 1) p).isNormal = true →
      (s.setPointsPerMeter p).mPointsPerMeter = p ∧ (s.setPointsPerMeter p).ScaleOk) ∧
    (∀ s : Sandbox, s.ScaleOk →
      |(F32.mul s.mMetersPerPoint s.mPointsPerMeter).val - 1| ≤ 1 / 2 ^ 22 ∧
      (∀ x : F32, (s.toPhysics x).isNormal = true →
        (s.toPoints (s.toPhysics x)).isNormal = true →
        |(s.toPoints (s.toPhysics x)).val - x.val| ≤ |x.val| / 2 ^ 22) ∧
      (∀ x : F32, (s.toPoints x).isNormal = true →
        (s.toPhysics (s.toPoints x)).isNormal = true →
        |(s.toPhysics (s.toPoints x)).val - x.val| ≤ |x.val| / 2 ^ 22)) := by
  have h50 : F32.lt (F32.ofRat 0) (F32.ofRat 50) = true ∧
      (F32.div (F32.ofRat 1) (F32.ofRat 50)).isNormal = true ∧
      F32.mul (F32.div (F32.ofRat 1) (F32.ofRat 50)) (F32.ofRat 50) = F32.ofRat 1 := by
    decide!
  refine ⟨fun bounds view filter renderer => ⟨⟨h50.1, rfl, h50.2.1⟩, h50.2.2⟩, ?_, ?_, ?_⟩
  · intro s vi pi hz
    exact ⟨⟨rfl, rfl⟩, ⟨rfl, rfl⟩, ⟨rfl, rfl⟩, fun h => ⟨h, h, h⟩⟩
  · intro s p hp hn
    exact ⟨rfl, hp, rfl, hn⟩
  · intro s h
    exact ⟨(scale_product_near_one s h).2, fun x h1 h2 => toPoints_toPhysics_err s h x h1 h2,
      fun x h1 h2 => toPhysics_toPoints_err s h x h1 h2⟩

/-- C10, a concrete instance: after `setPointsPerMeter(41.0f)` the Sandbox satisfies
`ScaleOk`, the intermediate results for `x = 1.0f` are normal numbers, and
`toPhysics(toPoints(1.0f))`, though not `1.0f`, is within `2^-22` of it. -/
theorem scale_invariant_up_to_rounding_witness :
    (sample.setPointsPerMeter (F32.ofRat 41)).ScaleOk ∧
    |((sample.setPointsPerMeter (F32.ofRat 41)).toPhysics
        ((sample.setPointsPerMeter (F32.ofRat 41)).toPoints (F32.ofRat 1))).val -
      (F32.ofRat 1).val| ≤ |(F32.ofRat 1).val| / 2 ^ 22 :=
  ⟨(scale_invariant_up_to_rounding.2.2.1 sample (F32.ofRat 41) (by decide!) (by decide!)).2,
    (scale_invariant_up_to_rounding.2.2.2 (sample.setPointsPerMeter (F32.ofRat 41))
      (scale_invariant_up_to_rounding.2.2.1 sample (F32.ofRat 41) (by decide!)
        (by decide!)).2).2.2 (F32.ofRat 1) (by decide!) (by decide!)⟩

/-! ## Linearity of the conversions (C9) -/

/-- Scaling by a `float` commutes with addition up to rounding. -/
theorem scale_add_err (k a b : F32) (h1 : (F32.add a b).isNormal = true)
    (h2 : (F32.mul (F32.add a b) k).isNormal = true) (h3 : (F32.mul a k).isNormal = true)
    (h4 : (F32.mul b k).isNormal = true)
    (h5 : (F32.add (F32.mul a k) (F32.mul b k)).isNormal = true) :
    |(F32.mul (F32.add a b) k).val - (F32.add (F32.mul a k) (F32.mul b k)).val| ≤
      (|a.val| + |b.val|) * |k.val| / 2 ^ 21 :=
  additive_bound _ _ _ _ _ _ _ _ (F32.add_err _ _ h1) (F32.mul_err _ _ h2) (F32.mul_err _ _ h3)
    (F32.mul_err _ _ h4) (F32.add_err _ _ h5)

/-- Scaling by a `float` commutes with multiplication by a scalar up to rounding. -/
theorem scale_smul_err (k c a : F32) (h1 : (F32.mul c a).isNormal = true)
    (h2 : (F32.mul (F32.mul c a) k).isNormal = true) (h3 : (F32.mul a k).isNormal = true)
    (h4 : (F32.mul c (F32.mul a k)).isNormal = true) :
    |(F32.mul (F32.mul c a) k).val - (F32.mul c (F32.mul a k)).val| ≤
      |c.val * a.val * k.val| / 2 ^ 21 :=
  homogeneous_bound _ _ _ _ _ _ _ (F32.mul_err _ _ h1) (F32.mul_err _ _ h2)
    (F32.mul_err _ _ h3) (F32.mul_err _ _ h4)

theorem allNormal_iff (v : Vec2f) :
    v.allNormal = true ↔ v.x.isNormal = true ∧ v.y.isNormal = true := by
  simp [Vec2f.allNormal]

/-- C9 (as stated, refuted): in the freshly constructed Sandbox, with `float` arguments,
`toPhysics((1,1) + (5,5))` differs from `toPhysics((1,1)) + toPhysics((5,5))`,
`toPhysics(3 * (7,7))` differs from `3 * toPhysics((7,7))`, and likewise `toPoints` at
`(0.1f, 0.1f)`, `(0.2f, 0.2f)` and `3 * (0.1f, 0.1f)`. -/
theorem conversions_not_linear :
    ((F32.ofRat 1).isFloat && (F32.ofRat 5).isFloat && (F32.ofRat 3).isFloat &&
      (F32.ofRat 7).isFloat && (F32.ofRat (1 / 10)).isFloat && (F32.ofRat (2 / 10)).isFloat) =
      true ∧
    sample.toPhysics (Vec2f.add ⟨F32.ofRat 1, F32.ofRat 1⟩ ⟨F32.ofRat 5, F32.ofRat 5⟩) ≠
      Vec2f.add (sample.toPhysics (⟨F32.ofRat 1, F32.ofRat 1⟩ : Vec2f))
        (sample.toPhysics (⟨F32.ofRat 5, F32.ofRat 5⟩ : Vec2f)) ∧
    sample.toPhysics (Vec2f.smul (F32.ofRat 3) ⟨F32.ofRat 7, F32.ofRat 7⟩) ≠
      Vec2f.smul (F32.ofRat 3) (sample.toPhysics (⟨F32.ofRat 7, F32.ofRat 7⟩ : Vec2f)) ∧
    sample.toPoints
        (Vec2f.add ⟨F32.ofRat (1 / 10), F32.ofRat (1 / 10)⟩
          ⟨F32.ofRat (2 / 10), F32.ofRat (2 / 10)⟩) ≠
      Vec2f.add (sample.toPoints (⟨F32.ofRat (1 / 10), F32.ofRat (1 / 10)⟩ : Vec2f))
        (sample.toPoints (⟨F32.ofRat (2 / 10), F32.ofRat (2 / 10)⟩ : Vec2f)) ∧
    sample.toPoints (Vec2f.smul (F32.ofRat 3) ⟨F32.ofRat (1 / 10), F32.ofRat (1 / 10)⟩) ≠
      Vec2f.smul (F32.ofRat 3)
        (sample.toPoints (⟨F32.ofRat (1 / 10), F32.ofRat (1 / 10)⟩ : Vec2f)) ∧
    F32.eq (sample.toPhysics (F32.add (F32.ofRat 1) (F32.ofRat 5)))
      (F32.add (sample.toPhysics (F32.ofRat 1)) (sample.toPhysics (F32.ofRat 5))) = false ∧
    F32.eq (sample.toPhysics (F32.mul (F32.ofRat 3) (F32.ofRat 7)))
      (F32.mul (F32.ofRat 3) (sample.toPhysics (F32.ofRat 7))) = false := by
  decide!

/-- C9 (amended): `toPhysics` and `toPoints` are one `float` multiplication by one scalar,
and the 2D-vector overload agrees componentwise with the scalar overload, exactly.  They are
linear up to rounding: for vectors `a`, `b` and a scalar `k`, whenever the results involved
are normal numbers, each component of `toPhysics(a + b)` is within
`2^-21 * (|a| + |b|) * |mMetersPerPoint|` of that of `toPhysics(a) + toPhysics(b)`, and each
component of `toPhysics(k * a)` is within `2^-21 * |k * a * mMetersPerPoint|` of that of
`k * toPhysics(a)`; likewise for `toPoints` with `mPointsPerMeter`. -/
theorem conversions_linear_up_to_rounding (s : Sandbox) :
    (∀ x : F32, s.toPhysics x = F32.mul x s.mMetersPerPoint ∧
      s.toPoints x = F32.mul x s.mPointsPerMeter) ∧
    (∀ v : Vec2f, s.toPhysics v = ⟨s.toPhysics v.x, s.toPhysics v.y⟩ ∧
      s.toPoints v = ⟨s.toPoints v.x, s.toPoints v.y⟩) ∧
    (∀ a b : Vec2f, (a.add b).allNormal = true → (s.toPhysics (a.add b)).allNormal = true →
      (s.toPhysics a).allNormal = true → (s.toPhysics b).allNormal = true →
      ((s.toPhysics a).add (s.toPhysics b)).allNormal = true →
      |(s.toPhysics (a.add b)).x.val - ((s.toPhysics a).add (s.toPhysics b)).x.val| ≤
        (|a.x.val| + |b.x.val|) * |s.mMetersPerPoint.val| / 2 ^ 21 ∧
      |(s.toPhysics (a.add b)).y.val - ((s.toPhysics a).add (s.toPhysics b)).y.val| ≤
        (|a.y.val| + |b.y.val|) * |s.mMetersPerPoint.val| / 2 ^ 21) ∧
    (∀ a b : Vec2f, (a.add b).allNormal = true → (s.toPoints (a.add b)).allNormal = true →
      (s.toPoints a).allNormal = true → (s.toPoints b).allNormal = true →
      ((s.toPoints a).add (s.toPoints b)).allNormal = true →
      |(s.toPoints (a.add b)).x.val - ((s.toPoints a).add (s.toPoints b)).x.val| ≤
        (|a.x.val| + |b.x.val|) * |s.mPointsPerMeter.val| / 2 ^ 21 ∧
      |(s.toPoints (a.add b)).y.val - ((s.toPoints a).add (s.toPoints b)).y.val| ≤
        (|a.y.val| + |b.y.val|) * |s.mPointsPerMeter.val| / 2 ^ 21) ∧
    (∀ (k : F32) (a : Vec2f), (Vec2f.smul k a).allNormal = true →
      (s.toPhysics (Vec2f.smul k a)).allNormal = true → (s.toPhysics a).allNormal = true →
      (Vec2f.smul k (s.toPhysics a)).allNormal = true →
      |(s.toPhysics (Vec2f.smul k a)).x.val - (Vec2f.smul k (s.toPhysics a)).x.val| ≤
        |k.val * a.x.val * s.mMetersPerPoint.val| / 2 ^ 21 ∧
      |(s.toPhysics (Vec2f.smul k a)).y.val - (Vec2f.smul k (s.toPhysics a)).y.val| ≤
        |k.val * a.y.val * s.mMetersPerPoint.val| / 2 ^ 21) ∧
    (∀ (k : F32) (a : Vec2f), (Vec2f.smul k a).allNormal = true →
      (s.toPoints (Vec2f.smul k a)).allNormal = true → (s.toPoints a).allNormal = true →
      (Vec2f.smul k (s.toPoints a)).allNormal = true →
      |(s.toPoints (Vec2f.smul k a)).x.val - (Vec2f.smul k (s.toPoints a)).x.val| ≤
        |k.val * a.x.val * s.mPointsPerMeter.val| / 2 ^ 21 ∧
      |(s.toPoints (Vec2f.smul k a)).y.val - (Vec2f.smul k (s.toPoints a)).y.val| ≤
        |k.val * a.y.val * s.mPointsPerMeter.val| / 2 ^ 21) := by
  refine ⟨fun x => ⟨rfl, rfl⟩, fun v => ⟨rfl, rfl⟩, ?_, ?_, ?_, ?_⟩
  · intro a b h1 h2 h3 h4 h5
    rw [allNormal_iff] at h1 h2 h3 h4 h5
    exact ⟨scale_add_err _ _ _ h1.1 h2.1 h3.1 h4.1 h5.1,
      scale_add_err _ _ _ h1.2 h2.2 h3.2 h4.2 h5.2⟩
  · intro a b h1 h2 h3 h4 h5
    rw [allNormal_iff] at h1 h2 h3 h4 h5
    exact ⟨scale_add_err _ _ _ h1.1 h2.1 h3.1 h4.1 h5.1,
      scale_add_err _ _ _ h1.2 h2.2 h3.2 h4.2 h5.2⟩
  · intro k a h1 h2 h3 h4
    rw [allNormal_iff] at h1 h2 h3 h4
    exact ⟨scale_smul_err _ _ _ h1.1 h2.1 h3.1 h4.1, scale_smul_err _ _ _ h1.2 h2.2 h3.2 h4.2⟩
  · intro k a h1 h2 h3 h4
    rw [allNormal_iff] at h1 h2 h3 h4
    exact ⟨scale_smul_err _ _ _ h1.1 h2.1 h3.1 h4.1, scale_smul_err _ _ _ h1.2 h2.2 h3.2 h4.2⟩

/-- C9, a concrete instance: at the default scale with `a = (1,1)`, `b = (5,5)` every
intermediate result is a normal number, and the two sides, though different, are within the
stated bound. -/
theorem conversions_linear_up_to_rounding_witness :
    |(sample.toPhysics (Vec2f.add ⟨F32.ofRat 1, F32.ofRat 1⟩ ⟨F32.ofRat 5, F32.ofRat 5⟩)).x.val -
        ((sample.toPhysics (⟨F32.ofRat 1, F32.ofRat 1⟩ : Vec2f)).add
          (sample.toPhysics (⟨F32.ofRat 5, F32.ofRat 5⟩ : Vec2f))).x.val| ≤
      (|(F32.ofRat 1).val| + |(F32.ofRat 5).val|) * |sample.mMetersPerPoint.val| / 2 ^ 21 :=
  ((conversions_linear_up_to_rounding sample).2.2.1 ⟨F32.ofRat 1, F32.ofRat 1⟩
    ⟨F32.ofRat 5, F32.ofRat 5⟩ (by decide!) (by decide!) (by decide!) (by decide!)
    (by decide!)).1

/-! ## `mouseUp` with nothing grabbed (C3) -/

/-- C7: from every Sandbox state, after `clear()` the body count and the contact count are
zero, and a subsequent `createBox` returns a body that is in the world, leaving the body
count at one (for every size, whatever the engine makes of a degenerate one). -/
theorem clear_then_createBox (s : Sandbox) (pos size : Vec2f) (degenerate : b2FixtureDef) :
    s.clear.getBodyCount = 0 ∧ s.clear.getContactCount = 0 ∧
    (s.clear.createBox pos size degenerate).1 ∈
      (s.clear.createBox pos size degenerate).2.mWorld.bodies ∧
    (s.clear.createBox pos size degenerate).2.getBodyCount = 1 :=
  ⟨rfl, rfl, List.mem_cons_self _ _, rfl⟩

/-! ## `createBox` (C6) -/

/-- What `mouseDown` can grab at simulation point `p`: a dynamic body, not the boundary, that
covers `p`. -/
theorem grabTarget_isSome_iff (s : Sandbox) (p : b2Vec2) :
    (s.grabTarget p).isSome = true ↔
      ∃ b ∈ s.mWorld.bodies, b.testPoint p = true ∧ b.type = b2BodyType.b2_dynamicBody ∧
        some b.id ≠ s.mBoundaryBody := by
  unfold grabTarget b2World.queryPoint
  rw [List.find?_isSome]
  constructor
  · rintro ⟨b, hb, hp⟩
    rw [List.mem_filter] at hb
    simp only [Bool.and_eq_true, decide_eq_true_eq] at hp
    exact ⟨b, hb.1, hb.2, hp.1, hp.2⟩
  · rintro ⟨b, hb, ht, hd, hn⟩
    refine ⟨b, List.mem_filter.mpr ⟨hb, ht⟩, ?_⟩
    simp only [Bool.and_eq_true, decide_eq_true_eq]
    exact ⟨hd, hn⟩

/-- C4 (as stated, refuted): the freshly constructed Sandbox with one static box created at
the origin is Idle and the box covers `toPhysics((0,0))`, yet `mouseDown` there returns false
and the state stays Idle. -/
theorem mouseDown_static_body_not_grabbed :
    (sample.createBody ⟨b2BodyType.b2_staticBody, ⟨F32.ofRat 0, F32.ofRat 0⟩⟩
      (boxShape (F32.ofRat 1) (F32.ofRat 1))).2.mMouseJoint = none ∧
    (∃ b ∈ (sample.createBody ⟨b2BodyType.b2_staticBody, ⟨F32.ofRat 0, F32.ofRat 0⟩⟩
        (boxShape (F32.ofRat 1) (F32.ofRat 1))).2.mWorld.bodies,
      b.testPoint ((sample.createBody ⟨b2BodyType.b2_staticBody, ⟨F32.ofRat 0, F32.ofRat 0⟩⟩
        (boxShape (F32.ofRat 1) (F32.ofRat 1))).2.toPhysics
          (⟨F32.ofRat 0, F32.ofRat 0⟩ : Vec2f)) = true) ∧
    ((sample.createBody ⟨b2BodyType.b2_staticBody, ⟨F32.ofRat 0, F32.ofRat 0⟩⟩
      (boxShape (F32.ofRat 1) (F32.ofRat 1))).2.mouseDown
        ⟨⟨F32.ofRat 0, F32.ofRat 0⟩⟩).1 = false ∧
    ((sample.createBody ⟨b2BodyType.b2_staticBody, ⟨F32.ofRat 0, F32.ofRat 0⟩⟩
      (boxShape (F32.ofRat 1) (F32.ofRat 1))).2.mouseDown
        ⟨⟨F32.ofRat 0, F32.ofRat 0⟩⟩).2.mMouseJoint = none := by
  decide!

/-- C4 (amended): for every Idle Sandbox and every cursor position `p`: if `toPhysics(p)`
lies inside a dynamic body that is not the boundary, `mouseDown` returns true and the state
becomes Dragging (one more mouse constraint exists, and it is the one the Sandbox tracks);
if no such body contains `toPhysics(p)`, `mouseDown` returns false and leaves the Sandbox as
it was, Idle. -/
theorem mouseDown_idle (s : Sandbox) (event : MouseEvent) (h : s.mMouseJoint = none) :
    ((∃ b ∈ s.mWorld.bodies, b.testPoint (s.toPhysics event.pos) = true ∧
        b.type = b2BodyType.b2_dynamicBody ∧ some b.id ≠ s.mBoundaryBody) →
      (s.mouseDown event).1 = true ∧ (s.mouseDown event).2.mMouseJoint.isSome = true ∧
      (s.mouseDown event).2.mWorld.mouseJointCount = s.mWorld.mouseJointCount + 1) ∧
    ((∀ b ∈ s.mWorld.bodies, ¬ (b.testPoint (s.toPhysics event.pos) = true ∧
        b.type = b2BodyType.b2_dynamicBody ∧ some b.id ≠ s.mBoundaryBody)) →
      (s.mouseDown event).1 = false ∧ (s.mouseDown event).2 = s ∧
      (s.mouseDown event).2.mMouseJoint = none) := by
  have hiff := grabTarget_isSome_iff s (s.toPhysics event.pos)
  constructor
  · intro hex
    have hs := hiff.mpr hex
    obtain ⟨b, hb⟩ := Option.isSome_iff_exists.mp hs
    simp [mouseDown, h, hb, b2World.mouseJointCount, b2World.CreateMouseJoint]
  · intro hall
    have hn : s.grabTarget (s.toPhysics event.pos) = none := by
      cases hg : s.grabTarget (s.toPhysics event.pos) with
      | none => rfl
      | some b =>
        have : (s.grabTarget (s.toPhysics event.pos)).isSome = true := by rw [hg]; rfl
        obtain ⟨b', hb', hc⟩ := hiff.mp this
        exact absurd hc (hall b' hb')
    simp [mouseDown, h, hn]

/-- C4, witness: after `createBox` of a 10-by-10 box at `(100, 100)` in the freshly
constructed Sandbox, `mouseDown` at `(100, 100)` returns true and starts a drag. -/
theorem mouseDown_idle_witness :
    (sampleWithBox.mouseDown ⟨⟨F32.ofRat 100, F32.ofRat 100⟩⟩).1 = true ∧
    (sampleWithBox.mouseDown ⟨⟨F32.ofRat 100, F32.ofRat 100⟩⟩).2.mMouseJoint.isSome = true ∧
    (sampleWithBox.mouseDown ⟨⟨F32.ofRat 100, F32.ofRat 100⟩⟩).2.mWorld.mouseJointCount =
      sampleWithBox.mWorld.mouseJointCount + 1 :=
  (mouseDown_idle sampleWithBox ⟨⟨F32.ofRat 100, F32.ofRat 100⟩⟩ rfl).1 (by decide!)

end Sandbox

/-! ## At most one mouse constraint (C5) -/

theorem filter_isMouse_map_target (j : Nat) (t : b2Vec2) (l : List b2Joint) :
    (l.map (fun x => if x.id = j then { x with target := t } else x)).filter
        (fun x => x.isMouse) =
      (l.filter (fun x => x.isMouse)).map
        (fun x => if x.id = j then { x with target := t } else x) := by
  induction l with
  | nil => rfl
  | cons a l ih =>
    rw [List.map_cons]
    by_cases ha : a.isMouse = true
    · have ha' : (if a.id = j then { a with target := t } else a).isMouse = true := by
        split_ifs <;> exact ha
      rw [List.filter_cons_of_pos ha', List.filter_cons_of_pos ha, List.map_cons, ih]
    · have ha' : ¬ (if a.id = j then { a with target := t } else a).isMouse = true := by
        split_ifs <;> exact ha
      rw [List.filter_cons_of_neg ha', List.filter_cons_of_neg ha, ih]

theorem filter_isMouse_destroy (j : Nat) (l : List b2Joint) :
    (l.filter (fun a => decide (a.id ≠ j))).filter (fun a => a.isMouse) =
      (l.filter (fun a => a.isMouse)).filter (fun a => decide (a.id ≠ j)) := by
  rw [List.filter_filter, List.filter_filter]
  congr 1
  funext a
  exact Bool.and_comm _ _

/-- A press with no grab outstanding: afterwards a grab is outstanding exactly when the
press returned true. -/
theorem mouseInv_mouseDown (s : Sandbox) (e : MouseEvent) (h : s.MouseInv false) :
    (s.mouseDown e).2.MouseInv (s.mouseDown e).1 := by
  have h0 := h.2 rfl
  unfold Sandbox.mouseDown
  cases hg : s.grabTarget (s.toPhysics e.pos) with
  | none => exact h
  | some b =>
    refine ⟨fun _ => ⟨⟨s.mWorld.nextId, true, b.id, s.toPhysics e.pos⟩, ?_, rfl⟩, fun hc => ?_⟩
    · simp only [b2World.CreateMouseJoint]
      rw [List.filter_cons_of_pos (by rfl), h0]
    · exact absurd hc (by simp)

theorem mouseInv_mouseDrag (s : Sandbox) (e : MouseEvent) (g : Bool) (h : s.MouseInv g) :
    (s.mouseDrag e).2.MouseInv g := by
  unfold Sandbox.mouseDrag
  cases hj : s.mMouseJoint with
  | none => exact h
  | some j =>
    refine ⟨fun hg => ?_, fun hg => ?_⟩
    · obtain ⟨jt, hf, hm⟩ := h.1 hg
      simp only [b2World.SetTarget]
      rw [filter_isMouse_map_target, hf]
      have hid : jt.id = j := by
        rw [hj] at hm
        exact (Option.some.inj hm).symm
      refine ⟨_, rfl, ?_⟩
      simp [hid]
    · simp only [b2World.SetTarget]
      rw [filter_isMouse_map_target, h.2 hg]
      rfl

theorem mouseInv_mouseUp (s : Sandbox) (e : MouseEvent) (g : Bool) (h : s.MouseInv g) :
    (s.mouseUp e).2.MouseInv false := by
  unfold Sandbox.mouseUp
  cases hj : s.mMouseJoint with
  | none =>
    refine ⟨fun hc => absurd hc (by simp), fun _ => ?_⟩
    cases g with
    | false => exact h.2 rfl
    | true =>
      obtain ⟨jt, -, hm⟩ := h.1 rfl
      rw [hj] at hm
      exact absurd hm (by simp)
  | some j =>
    refine ⟨fun hc => absurd hc (by simp), fun _ => ?_⟩
    simp only [b2World.DestroyJoint]
    rw [filter_isMouse_destroy]
    cases g with
    | false => rw [h.2 rfl]; rfl
    | true =>
      obtain ⟨jt, hf, hm⟩ := h.1 rfl
      rw [hj] at hm
      have hid : jt.id = j := (Option.some.inj hm).symm
      rw [hf]
      simp [hid]

theorem mouseInv_clear (s : Sandbox) : s.clear.MouseInv false :=
  ⟨fun hc => absurd hc (by simp), fun _ => rfl⟩

theorem mouseInv_runCalls (calls : List Call) (s : Sandbox) (g : Bool) (h : s.MouseInv g)
    (hp : pairedFrom g (runCalls s calls).1 = true) :
    (runCalls s calls).2.MouseInv (grabScan g (runCalls s calls).1) := by
  induction calls generalizing s g with
  | nil => exact h
  | cons c cs ih =>
    cases c with
    | mouseDown e =>
      have hp' : (!g && pairedFrom (g || (s.mouseDown e).1) (runCalls (s.mouseDown e).2 cs).1)
          = true := hp
      rw [Bool.and_eq_true, Bool.not_eq_true'] at hp'
      obtain ⟨hg, hp2⟩ := hp'
      subst hg
      have hstep : (s.mouseDown e).2.MouseInv (false || (s.mouseDown e).1) := by
        rw [Bool.false_or]
        exact mouseInv_mouseDown s e h
      exact ih _ _ hstep hp2
    | mouseDrag e => exact ih _ _ (mouseInv_mouseDrag s e g h) hp
    | mouseUp e => exact ih _ _ (mouseInv_mouseUp s e g h) hp
    | clear => exact ih _ _ (mouseInv_clear s) hp

theorem grabbedSince_cons (x : Call × Bool) (h : List (Call × Bool)) :
    GrabbedSince (x :: h) ↔
      GrabbedSince h ∨ ((∃ e, x = (Call.mouseDown e, true)) ∧ ∀ c ∈ h, c.1.isRelease = false) := by
  constructor
  · rintro ⟨pre, e, post, heq, hpost⟩
    cases pre with
    | nil =>
      simp only [List.nil_append, List.cons.injEq] at heq
      right
      exact ⟨⟨e, heq.1⟩, heq.2 ▸ hpost⟩
    | cons y pre' =>
      simp only [List.cons_append, List.cons.injEq] at heq
      left
      exact ⟨pre', e, post, heq.2, hpost⟩
  · rintro (⟨pre, e, post, heq, hpost⟩ | ⟨⟨e, he⟩, hall⟩)
    · exact ⟨x :: pre, e, post, by rw [heq]; rfl, hpost⟩
    · exact ⟨[], e, h, by rw [he]; rfl, hall⟩

theorem not_grabbedSince_nil : ¬ GrabbedSince [] := by
  rintro ⟨pre, e, post, heq, -⟩
  cases pre <;> simp at heq

theorem grabScan_iff (hist : List (Call × Bool)) (g : Bool) :
    grabScan g hist = true ↔
      GrabbedSince hist ∨ (g = true ∧ ∀ c ∈ hist, c.1.isRelease = false) := by
  induction hist generalizing g with
  | nil =>
    simp only [grabScan, List.not_mem_nil, false_implies, implies_true, and_true]
    constructor
    · exact fun h => Or.inr h
    · rintro (h | h)
      · exact absurd h not_grabbedSince_nil
      · exact h
  | cons x h ih =>
    obtain ⟨c, r⟩ := x
    rw [grabbedSince_cons]
    cases c with
    | mouseDown e =>
      simp only [grabScan, ih, Bool.or_eq_true, List.mem_cons, forall_eq_or_imp, Call.isRelease,
        true_and, Prod.mk.injEq, Call.mouseDown.injEq, exists_and_right, exists_eq', ]
      tauto
    | mouseDrag e =>
      simp only [grabScan, ih, List.mem_cons, forall_eq_or_imp, Call.isRelease, true_and,
        Prod.mk.injEq, false_and, exists_false, or_false, reduceCtorEq]
    | mouseUp e =>
      simp only [grabScan, ih, List.mem_cons, forall_eq_or_imp, Call.isRelease,
        Prod.mk.injEq, false_and, exists_false, or_false, reduceCtorEq, Bool.false_eq_true,
        Bool.true_eq_false, and_false]
    | clear =>
      simp only [grabScan, ih, List.mem_cons, forall_eq_or_imp, Call.isRelease,
        Prod.mk.injEq, false_and, exists_false, or_false, reduceCtorEq, Bool.false_eq_true,
        Bool.true_eq_false, and_false]

theorem grabScan_false_iff (hist : List (Call × Bool)) :
    grabScan false hist = true ↔ GrabbedSince hist := by
  rw [grabScan_iff]
  simp

theorem pairedFrom_iff (hist : List (Call × Bool)) (g : Bool) :
    pairedFrom g hist = true ↔
      ∀ pre e r post, hist = pre ++ (Call.mouseDown e, r) :: post → grabScan g pre = false := by
  induction hist generalizing g with
  | nil =>
    simp only [pairedFrom, true_iff]
    intro pre e r post heq
    cases pre <;> simp at heq
  | cons x h ih =>
    obtain ⟨c, r0⟩ := x
    have split : ∀ g' : Bool,
        (∀ pre e r post, (c, r0) :: h = pre ++ (Call.mouseDown e, r) :: post →
          grabScan g pre = false) ↔
        ((∀ e r, (c, r0) = (Call.mouseDown e, r) → g = false) ∧
          (∀ pre e r post, h = pre ++ (Call.mouseDown e, r) :: post →
            grabScan g ((c, r0) :: pre) = false)) := by
      intro _
      constructor
      · intro hall
        refine ⟨fun e r he => ?_, fun pre e r post heq => ?_⟩
        · exact hall [] e r h (by rw [he]; rfl)
        · exact hall ((c, r0) :: pre) e r post (by rw [heq]; rfl)
      · rintro ⟨h1, h2⟩ pre e r post heq
        cases pre with
        | nil =>
          simp only [List.nil_append, List.cons.injEq] at heq
          exact h1 e r heq.1
        | cons y pre' =>
          simp only [List.cons_append, List.cons.injEq] at heq
          rw [← heq.1]
          exact h2 pre' e r post heq.2
    rw [split g]
    cases c with
    | mouseDown e0 =>
      simp only [pairedFrom, grabScan, Bool.and_eq_true, Bool.not_eq_true', ih]
      constructor
      · rintro ⟨hg, hrest⟩
        exact ⟨fun _ _ _ => hg, hrest⟩
      · rintro ⟨h1, hrest⟩
        exact ⟨h1 e0 r0 rfl, hrest⟩
    | mouseDrag e0 =>
      simp only [pairedFrom, grabScan, ih]
      constructor
      · intro hrest
        exact ⟨fun e r he => by simp at he, hrest⟩
      · exact fun hh => hh.2
    | mouseUp e0 =>
      simp only [pairedFrom, grabScan, ih]
      constructor
      · intro hrest
        exact ⟨fun e r he => by simp at he, hrest⟩
      · exact fun hh => hh.2
    | clear =>
      simp only [pairedFrom, grabScan, ih]
      constructor
      · intro hrest
        exact ⟨fun e r he => by simp at he, hrest⟩
      · exact fun hh => hh.2

theorem pressesPaired_iff (hist : List (Call × Bool)) :
    PressesPaired hist ↔ pairedFrom false hist = true := by
  rw [pairedFrom_iff]
  unfold PressesPaired
  constructor
  · intro hall pre e r post heq
    have := hall pre e r post heq
    rw [← grabScan_false_iff] at this
    simpa using this
  · intro hall pre e r post heq
    rw [← grabScan_false_iff, hall pre e r post heq]
    simp

/-- C5 (as stated, refuted): the freshly constructed Sandbox with one box holds no mouse
constraint and tracks none; after two `mouseDown` calls on the box, with no `mouseUp` or
`clear` in between, both calls have returned true and two mouse constraints are alive. -/
theorem two_presses_two_mouse_joints :
    Sandbox.sampleWithBox.mMouseJoint = none ∧
    Sandbox.sampleWithBox.mWorld.mouseJointCount = 0 ∧
    ((runCalls Sandbox.sampleWithBox pressPress).1.map (fun c => c.2)) = [true, true] ∧
    (runCalls Sandbox.sampleWithBox pressPress).2.mWorld.mouseJointCount = 2 := by
  decide!

/-- C5 (amended): start from any Sandbox whose world holds no mouse constraint (a freshly
constructed one, with or without bodies created since) and perform any sequence of
`mouseDown`, `mouseDrag`, `mouseUp` and `clear` calls in which no `mouseDown` is issued while
a grab is outstanding (presses and releases paired, which is the caller's duty).  In the
state reached at most one mouse constraint is alive; one is alive if and only if some
`mouseDown` returned true and no `mouseUp` or `clear` has been called since; and when one is
alive it is the one `mMouseJoint` refers to. -/
theorem mouse_constraint_invariant (s : Sandbox) (calls : List Call)
    (hnone : s.mWorld.mouseJointCount = 0) (hpaired : PressesPaired (runCalls s calls).1) :
    (runCalls s calls).2.mWorld.mouseJointCount ≤ 1 ∧
    ((runCalls s calls).2.mWorld.mouseJointCount = 1 ↔ GrabbedSince (runCalls s calls).1) ∧
    (GrabbedSince (runCalls s calls).1 →
      ∃ jt, (runCalls s calls).2.mWorld.joints.filter (fun j => j.isMouse) = [jt] ∧
        (runCalls s calls).2.mMouseJoint = some jt.id) := by
  have h0 : s.MouseInv false :=
    ⟨fun hc => absurd hc (by simp), fun _ => List.length_eq_zero.mp hnone⟩
  have hinv := mouseInv_runCalls calls s false h0 ((pressesPaired_iff _).mp hpaired)
  have hiff := grabScan_false_iff (runCalls s calls).1
  unfold b2World.mouseJointCount
  cases hg : grabScan false (runCalls s calls).1 with
  | false =>
    rw [hg] at hinv hiff
    have hno : ¬ GrabbedSince (runCalls s calls).1 := fun hc => by
      have := hiff.mpr hc
      simp at this
    rw [hinv.2 rfl]
    exact ⟨by simp, ⟨fun hc => by simp at hc, fun hc => absurd hc hno⟩,
      fun hc => absurd hc hno⟩
  | true =>
    rw [hg] at hinv hiff
    have hyes : GrabbedSince (runCalls s calls).1 := hiff.mp rfl
    obtain ⟨jt, hf, hm⟩ := hinv.1 rfl
    rw [hf]
    exact ⟨by simp, ⟨fun _ => hyes, fun _ => by simp⟩, fun _ => ⟨jt, rfl, hm⟩⟩

/-- C5, witness: in the freshly constructed Sandbox with one box, press on the box, drag,
release, press again: the world starts without mouse constraints, the presses are paired,
and at the end one mouse constraint is alive and a grab has occurred with no release since. -/
theorem mouse_constraint_invariant_witness :
    Sandbox.sampleWithBox.mWorld.mouseJointCount = 0 ∧
    PressesPaired (runCalls Sandbox.sampleWithBox pressDragReleasePress).1 ∧
    (runCalls Sandbox.sampleWithBox pressDragReleasePress).2.mWorld.mouseJointCount = 1 ∧
    GrabbedSince (runCalls Sandbox.sampleWithBox pressDragReleasePress).1 := by
  have hp : PressesPaired (runCalls Sandbox.sampleWithBox pressDragReleasePress).1 :=
    (pressesPaired_iff _).mpr (by decide!)
  have hcount :
      (runCalls Sandbox.sampleWithBox pressDragReleasePress).2.mWorld.mouseJointCount = 1 := by
    decide!
  exact ⟨rfl, hp, hcount,
    (mouse_constraint_invariant Sandbox.sampleWithBox pressDragReleasePress rfl hp).2.1.mp
      hcount⟩

end sansumbrella
